import Mathlib

/-!
Verification development for the aiStack MCP servers.

The repository has two stdio protocol servers written in TypeScript:

* `model_router` (source file embedded here as namespace `ModelRouter`):
  Content-Length framed transport, a provider-normalizing model gateway
  (`callModel`), and the brainstorm / debate / synthesis orchestration
  (`runBrainstorm`).
* `claude_runner` (`src/mcp/claude_runner/server.ts`, namespace
  `ClaudeRunner`): path-sandboxed subprocess bridge (`isUnder`,
  `validateCwd`, `runClaude`, `callTool`).

Source JavaScript values (the parsed JSON tool arguments) are modelled by
`JsVal`; JavaScript numbers are modelled as rationals (every numeric input
exercised by the development is a small integer or the literal `0.2`, all
exact in `ℚ`).  Network and subprocess effects are modelled by oracle
functions passed as parameters, together with an explicit trace of the
requests issued, so "no network call happens" is the statement that the
trace is empty.
-/

set_option linter.unusedVariables false

namespace AiStack

/-- Model of a JavaScript value as seen by the servers after `JSON.parse`
(plus `undef` for absent object properties).  Numbers are modelled as
rationals. -/
inductive JsVal where
  | str (s : String)
  | num (q : ℚ)
  | boolean (b : Bool)
  | null
  | undef
  | obj (fields : List (String × JsVal))
  | arr (elems : List JsVal)

/-- Property access `o.k`: the first binding wins (JSON.parse keeps the last
duplicate key, but the parsed objects we model have distinct keys);
a missing property is `undefined`. -/
def jsField (v : JsVal) (k : String) : JsVal :=
  match v with
  | JsVal.obj fields =>
    (fields.find? (fun kv => kv.1 = k)).elim JsVal.undef (fun kv => kv.2)
  | _ => JsVal.undef

/-- JavaScript truthiness: `""`, `0`, `false`, `null`, `undefined` are falsy,
objects and arrays are truthy. -/
def jsTruthy : JsVal → Bool
  | JsVal.str s => s ≠ ""
  | JsVal.num q => q ≠ 0
  | JsVal.boolean b => b
  | JsVal.null => false
  | JsVal.undef => false
  | JsVal.obj _ => true
  | JsVal.arr _ => true

/-- `a || b`. -/
def jsOr (a b : JsVal) : JsVal := if jsTruthy a then a else b

/-- ASCII lower-casing of one character (`String.prototype.toLowerCase` on the
ASCII provider names the servers compare against). -/
def asciiLowerChar (c : Char) : Char :=
  if 65 ≤ c.toNat ∧ c.toNat ≤ 90 then Char.ofNat (c.toNat + 32) else c

/-- ASCII `toLowerCase`. -/
def asciiLower (s : String) : String := String.mk (s.data.map asciiLowerChar)

/-- JavaScript whitespace (the ASCII part `String.prototype.trim` strips). -/
def jsWhitespaceChar (c : Char) : Bool := c.toNat = 32 ∨ (9 ≤ c.toNat ∧ c.toNat ≤ 13)

/-- `s.trim()`. -/
def jsTrim (s : String) : String :=
  String.mk (((s.data.dropWhile jsWhitespaceChar).reverse.dropWhile
    jsWhitespaceChar).reverse)

/-- The numeric literal `0.2`, the default `temperature`. -/
def temperatureDefault : ℚ := ⟨1, 5, by decide, Nat.coprime_one_left 5⟩

mutual

/-- `String(v)`: arrays join their elements with `","` and plain objects
print as `[object Object]`.  A numeric value prints via `Rat.repr` (the
development only ever stringifies string-valued fields). -/
def jsToString : JsVal → String
  | JsVal.str s => s
  | JsVal.num q => toString q
  | JsVal.boolean b => if b then "true" else "false"
  | JsVal.null => "null"
  | JsVal.undef => "undefined"
  | JsVal.obj _ => "[object Object]"
  | JsVal.arr elems => String.intercalate "," (jsToStringList elems)

def jsToStringList : List JsVal → List String
  | [] => []
  | v :: vs => jsToString v :: jsToStringList vs

end

/-- `Number(string)`: after trimming, the empty string is `0`, an optional
sign followed by decimal digits is that integer, anything else is `NaN`
(`none`).  (JavaScript also accepts fractional and hex literals; no input
exercised by the claims uses them.) -/
def jsParseNumber (s : String) : Option ℚ :=
  let t := ((s.data.dropWhile jsWhitespaceChar).reverse.dropWhile
    jsWhitespaceChar).reverse
  match t with
  | [] => some 0
  | c :: rest =>
    let signed : ℚ × List Char :=
      if c.toNat = 45 then (-1, rest)
      else if c.toNat = 43 then (1, rest) else (1, c :: rest)
    if signed.2 ≠ [] ∧ signed.2.all (fun d => 48 ≤ d.toNat ∧ d.toNat ≤ 57) then
      some (signed.1 *
        (signed.2.foldl (fun a d => a * 10 + (d.toNat - 48)) (0 : ℕ) : ℕ))
    else none

/-- `Number(v)`; `none` models `NaN`.  (`Number` of an array goes through
string conversion in JavaScript; the claims never convert arrays or objects
to numbers, and both are modelled as `NaN` except the empty array.) -/
def jsNumber : JsVal → Option ℚ
  | JsVal.num q => some q
  | JsVal.str s => jsParseNumber s
  | JsVal.boolean b => some (if b then 1 else 0)
  | JsVal.null => some 0
  | JsVal.undef => none
  | JsVal.obj _ => none
  | JsVal.arr [] => some 0
  | JsVal.arr (_ :: _) => none

/-- `Number(v || d)` — the `|| default` idiom the servers use for numeric
arguments (note that it sends the *falsy* number `0` to the default). -/
def jsNumberOr (v : JsVal) (d : ℚ) : Option ℚ := jsNumber (jsOr v (JsVal.num d))

/-- JavaScript-object-style insertion into an insertion-ordered map:
`m[k] = v` overwrites in place when the key exists and appends otherwise. -/
def objSet {κ α : Type} [DecidableEq κ] (m : List (κ × α)) (k : κ) (v : α) :
    List (κ × α) :=
  match m with
  | [] => [(k, v)]
  | (k', v') :: rest =>
    if k' = k then (k, v) :: rest else (k', v') :: objSet rest k v

/-- Property lookup in an insertion-ordered map. -/
def objGet {κ α : Type} [DecidableEq κ] (m : List (κ × α)) (k : κ) : Option α :=
  match m with
  | [] => none
  | (k', v') :: rest => if k' = k then some v' else objGet rest k

@[simp] theorem objGet_nil {κ α : Type} [DecidableEq κ] (k : κ) :
    objGet ([] : List (κ × α)) k = none := rfl

theorem objGet_objSet_self {κ α : Type} [DecidableEq κ] (m : List (κ × α))
    (k : κ) (v : α) : objGet (objSet m k v) k = some v := by
  induction m with
  | nil => simp [objSet, objGet]
  | cons hd tl ih =>
    obtain ⟨k', v'⟩ := hd
    by_cases h : k' = k <;> simp [objSet, objGet, h, ih]

theorem objGet_objSet_ne {κ α : Type} [DecidableEq κ] (m : List (κ × α))
    (k k' : κ) (v : α) (h : k ≠ k') : objGet (objSet m k v) k' = objGet m k' := by
  induction m with
  | nil => simp [objSet, objGet, h]
  | cons hd tl ih =>
    obtain ⟨k₀, v₀⟩ := hd
    by_cases h₀ : k₀ = k
    · subst h₀
      simp [objSet, objGet, h]
    · simp only [objSet, if_neg h₀]
      by_cases h₁ : k₀ = k' <;> simp [objGet, h₁, ih]

theorem objGet_objSet_isSome {κ α : Type} [DecidableEq κ] (m : List (κ × α))
    (k k' : κ) (v : α) (h : (objGet m k').isSome) :
    (objGet (objSet m k v) k').isSome := by
  by_cases hk : k = k'
  · subst hk
    simp [objGet_objSet_self]
  · rwa [objGet_objSet_ne m k k' v hk]

/-! ## Framed transport (`writeMessage` / `readMessageSync`, both servers)

The wire stream is modelled as a list of byte values (`List ℕ`).  The
source's `writeMessage` serializes a JSON value and frames the resulting
body; `readMessageSync` reads a frame and `JSON.parse`s the body.  The
framing layer — everything except the JSON encode/parse of the body, which
the transport never interprets — is embedded here over raw body bytes. -/

namespace Framing

/-- The ASCII bytes of `"Content-Length: "`, the header prefix
`writeMessage` emits. -/
def contentLengthLit : List ℕ :=
  [67, 111, 110, 116, 101, 110, 116, 45, 76, 101, 110, 103, 116, 104, 58, 32]

/-- Decimal digits of `n`, least significant first (byte values); the fuel
argument makes the recursion structural, and `n + 1` units always suffice. -/
def natDigitsRevFuel : ℕ → ℕ → List ℕ
  | 0, _ => []
  | fuel + 1, n =>
    if n < 10 then [48 + n] else (48 + n % 10) :: natDigitsRevFuel fuel (n / 10)

/-- Decimal digits of `n`, least significant first (byte values). -/
def natDigitsRev (n : ℕ) : List ℕ := natDigitsRevFuel (n + 1) n

/-- The ASCII decimal rendering of `n` (the `${body.length}` interpolation). -/
def natDigits (n : ℕ) : List ℕ := (natDigitsRev n).reverse

/-- The header `writeMessage` emits for a body of `n` bytes:
`Content-Length: n\r\n\r\n` in ASCII. -/
def headerBytes (n : ℕ) : List ℕ :=
  contentLengthLit ++ natDigits n ++ [13, 10, 13, 10]

/-- `writeMessage` at the framing layer: header followed by exactly the body
bytes. -/
def writeMessageBytes (body : List ℕ) : List ℕ :=
  headerBytes body.length ++ body

/-- `headerRaw.endsWith "\r\n\r\n")` — the loop exit test of
`readMessageSync`'s header accumulation. -/
def headerDone (acc : List ℕ) : Bool :=
  decide (acc.reverse.take 4 = [10, 13, 10, 13])

/-- `acc` ends with `"\r\n"` (used only in proofs about the scanner). -/
def endsCRLF (acc : List ℕ) : Bool :=
  decide (acc.reverse.take 2 = [10, 13])

/-- The header-accumulation loop of `readMessageSync`: consume one byte at a
time, appending to `acc`, until the accumulated header ends with
`\r\n\r\n`; end of stream yields `none` ("no message"). -/
def readHeaderLoop : List ℕ → List ℕ → Option (List ℕ × List ℕ)
  | [], _ => none
  | b :: rest, acc =>
    let acc2 := acc ++ [b]
    if headerDone acc2 then some (acc2, rest) else readHeaderLoop rest acc2

/-- `headerRaw.split("\r\n")`. -/
def splitCRLF : List ℕ → List (List ℕ)
  | [] => [[]]
  | [b] => [[b]]
  | b :: c :: rest =>
    if b = 13 ∧ c = 10 then [] :: splitCRLF rest
    else
      match splitCRLF (c :: rest) with
      | [] => [[b]]
      | h :: t => (b :: h) :: t

/-- JavaScript whitespace as far as `String.prototype.trim` is concerned,
restricted to the ASCII range the headers use. -/
def isJsSpace (b : ℕ) : Bool := b = 32 ∨ (9 ≤ b ∧ b ≤ 13)

/-- `value.trim()` on header bytes. -/
def trimBytes (xs : List ℕ) : List ℕ :=
  ((xs.dropWhile isJsSpace).reverse.dropWhile isJsSpace).reverse

/-- First index of `":"` (byte 58) in a header line, `none` when absent
(the source compares `indexOf(":") > 0`). -/
def idxOfColon : List ℕ → Option ℕ
  | [] => none
  | b :: rest => if b = 58 then some 0 else (idxOfColon rest).map (· + 1)

/-- ASCII `toLowerCase` on header-key bytes. -/
def lowerBytes (xs : List ℕ) : List ℕ :=
  xs.map (fun b => if 65 ≤ b ∧ b ≤ 90 then b + 32 else b)

/-- The header map built by `readMessageSync`: for every line holding a colon
at a positive index, assign `map[key.trim().toLowerCase()] = value.trim()`. -/
def headerEntries (lines : List (List ℕ)) : List (List ℕ × List ℕ) :=
  lines.foldl
    (fun m line =>
      match idxOfColon line with
      | some idx =>
        if 0 < idx then
          objSet m (lowerBytes (trimBytes (line.take idx)))
            (trimBytes (line.drop (idx + 1)))
        else m
      | none => m)
    []

/-- The ASCII bytes of `"content-length"`. -/
def contentLengthKey : List ℕ :=
  [99, 111, 110, 116, 101, 110, 116, 45, 108, 101, 110, 103, 116, 104]

/-- `Number(...)` on the header value the servers feed it: after trimming,
the empty string is `0`, a pure digit string is its value, anything else is
`NaN` (`none`).  (JavaScript `Number` also accepts signs and fractional
notation; the self-generated headers this layer parses are pure digit
strings.) -/
def jsNumBytes (xs : List ℕ) : Option ℕ :=
  let t := trimBytes xs
  if t = [] then some 0
  else if t.all (fun b => 48 ≤ b ∧ b ≤ 57) then
    some (t.foldl (fun a b => a * 10 + (b - 48)) 0)
  else none

/-- `readMessageSync` at the framing layer: accumulate the header, parse
`Content-Length` (`headerMap["content-length"] || "0"` fed to `Number`; a
zero, missing, or malformed length is `!len` and yields `none`), then read
exactly that many body bytes, yielding `none` when the stream ends first
(`readExactSync` returning `null`). -/
def readMessageBytes (stream : List ℕ) : Option (List ℕ) :=
  match readHeaderLoop stream [] with
  | none => none
  | some (headerRaw, rest) =>
    let lines := (splitCRLF headerRaw).filter (fun l => l ≠ [])
    let m := headerEntries lines
    let raw :=
      match objGet m contentLengthKey with
      | some v => if v ≠ [] then v else [48]
      | none => [48]
    match jsNumBytes raw with
    | none => none
    | some 0 => none
    | some (n + 1) =>
      if rest.length < n + 1 then none else some (rest.take (n + 1))

/-! ### Facts about the decimal rendering -/

theorem natDigitsRevFuel_bounds (n : ℕ) :
    ∀ fuel, n < fuel → ∀ b ∈ natDigitsRevFuel fuel n, 48 ≤ b ∧ b ≤ 57 := by
  induction n using Nat.strong_induction_on with
  | _ n ih =>
    intro fuel hfuel b hb
    match fuel with
    | f + 1 =>
      by_cases h : n < 10
      · simp only [natDigitsRevFuel, if_pos h, List.mem_singleton] at hb
        omega
      · simp only [natDigitsRevFuel, if_neg h, List.mem_cons] at hb
        rcases hb with hb | hb
        · have := Nat.mod_lt n (show 0 < 10 by omega)
          omega
        · exact ih (n / 10) (Nat.div_lt_self (by omega) (by omega)) f
            (by omega) b hb

theorem natDigitsRevFuel_ne_nil (n fuel : ℕ) (h : n < fuel) :
    natDigitsRevFuel fuel n ≠ [] := by
  match fuel with
  | f + 1 =>
    by_cases h10 : n < 10 <;> simp [natDigitsRevFuel, h10]

theorem natDigitsRevFuel_parse (n : ℕ) :
    ∀ fuel acc, n < fuel →
      ((natDigitsRevFuel fuel n).reverse).foldl
          (fun a b => a * 10 + (b - 48)) acc =
        acc * 10 ^ (natDigitsRevFuel fuel n).length + n := by
  induction n using Nat.strong_induction_on with
  | _ n ih =>
    intro fuel acc hfuel
    match fuel with
    | f + 1 =>
      by_cases h : n < 10
      · simp only [natDigitsRevFuel, if_pos h, List.reverse_singleton,
          List.foldl_cons, List.foldl_nil, List.length_singleton]
        omega
      · have hdiv : n / 10 < n := Nat.div_lt_self (by omega) (by omega)
        have hdivf : n / 10 < f := by omega
        simp only [natDigitsRevFuel, if_neg h, List.reverse_cons,
          List.foldl_append, List.foldl_cons, List.foldl_nil, List.length_cons]
        rw [ih (n / 10) hdiv f acc hdivf]
        have hmod : n % 10 < 10 := Nat.mod_lt n (by omega)
        have hdm : n / 10 * 10 + n % 10 = n := by omega
        have h48 : 48 + n % 10 - 48 = n % 10 := by omega
        rw [h48, pow_succ]
        ring_nf
        omega

theorem natDigits_bounds (n : ℕ) : ∀ b ∈ natDigits n, 48 ≤ b ∧ b ≤ 57 := by
  intro b hb
  rw [natDigits, natDigitsRev, List.mem_reverse] at hb
  exact natDigitsRevFuel_bounds n (n + 1) (by omega) b hb

theorem natDigits_ne_nil (n : ℕ) : natDigits n ≠ [] := by
  rw [natDigits, natDigitsRev]
  simp [natDigitsRevFuel_ne_nil n (n + 1) (by omega)]

theorem natDigits_parse (n : ℕ) :
    (natDigits n).foldl (fun a b => a * 10 + (b - 48)) 0 = n := by
  rw [natDigits, natDigitsRev, natDigitsRevFuel_parse n (n + 1) 0 (by omega)]
  omega

/-! ### The header scanner on a well-formed frame -/

theorem headerDone_append_ne10 (acc : List ℕ) (b : ℕ) (h : b ≠ 10) :
    headerDone (acc ++ [b]) = false := by
  simp [headerDone, List.reverse_append, h]

theorem endsCRLF_append_ne10 (acc : List ℕ) (b : ℕ) (h : b ≠ 10) :
    endsCRLF (acc ++ [b]) = false := by
  simp [endsCRLF, List.reverse_append, h]

theorem headerDone_after_cr_lf (acc : List ℕ) (h : endsCRLF acc = false) :
    headerDone ((acc ++ [13]) ++ [10]) = false := by
  simp only [endsCRLF, decide_eq_false_iff_not] at h
  simp [headerDone, List.reverse_append, h]

theorem headerDone_terminator (acc : List ℕ) :
    headerDone ((((acc ++ [13]) ++ [10]) ++ [13]) ++ [10]) = true := by
  simp [headerDone, List.reverse_append]

theorem readHeaderLoop_frame (S : List ℕ) (hS : ∀ b ∈ S, b ≠ 10) :
    ∀ acc rest, endsCRLF acc = false →
      readHeaderLoop (S ++ 13 :: 10 :: 13 :: 10 :: rest) acc =
        some (acc ++ S ++ [13, 10, 13, 10], rest) := by
  induction S with
  | nil =>
    intro acc rest hacc
    simp only [List.nil_append, readHeaderLoop]
    rw [headerDone_append_ne10 acc 13 (by omega)]
    simp only [Bool.false_eq_true, if_false, readHeaderLoop]
    rw [headerDone_after_cr_lf acc hacc]
    simp only [Bool.false_eq_true, if_false, readHeaderLoop]
    rw [headerDone_append_ne10 _ 13 (by omega)]
    simp only [Bool.false_eq_true, if_false, readHeaderLoop]
    rw [headerDone_terminator acc]
    simp
  | cons s S' ih =>
    intro acc rest hacc
    have hs : s ≠ 10 := hS s (List.mem_cons_self s S')
    simp only [List.cons_append, readHeaderLoop, List.append_eq]
    rw [headerDone_append_ne10 acc s hs]
    simp only [Bool.false_eq_true, if_false]
    rw [ih (fun b hb => hS b (List.mem_cons_of_mem s hb)) (acc ++ [s]) rest
      (endsCRLF_append_ne10 acc s hs)]
    simp

/-! ### Splitting the header on CRLF -/

theorem splitCRLF_ne_nil (xs : List ℕ) : splitCRLF xs ≠ [] := by
  match xs with
  | [] => simp [splitCRLF]
  | [b] => simp [splitCRLF]
  | b :: c :: rest =>
    simp only [splitCRLF]
    split
    · simp
    · split <;> simp

theorem splitCRLF_append_no13 (S ys : List ℕ) (hS : ∀ b ∈ S, b ≠ 13) :
    splitCRLF (S ++ ys) = (splitCRLF ys).modifyHead (fun h => S ++ h) := by
  induction S with
  | nil =>
    simp only [List.nil_append]
    cases hys : splitCRLF ys with
    | nil => exact absurd hys (splitCRLF_ne_nil ys)
    | cons h t => simp [List.modifyHead]
  | cons s S' ih =>
    have hs : s ≠ 13 := hS s (List.mem_cons_self s S')
    have hS' : ∀ b ∈ S', b ≠ 13 := fun b hb => hS b (List.mem_cons_of_mem s hb)
    cases hsy : S' ++ ys with
    | nil =>
      obtain ⟨hS'nil, hysnil⟩ := List.append_eq_nil.mp hsy
      subst hS'nil hysnil
      simp [splitCRLF, List.modifyHead]
    | cons c tail =>
      have : splitCRLF (S' ++ ys) =
          (splitCRLF ys).modifyHead (fun h => S' ++ h) := ih hS'
      rw [hsy] at this
      obtain ⟨h₀, t₀, hys⟩ := List.exists_cons_of_ne_nil (splitCRLF_ne_nil ys)
      rw [hys] at this ⊢
      simp only [List.modifyHead] at this ⊢
      calc splitCRLF ((s :: S') ++ ys) = splitCRLF (s :: c :: tail) := by
            rw [List.cons_append, hsy]
        _ = ((s :: S') ++ h₀) :: t₀ := by
            simp only [splitCRLF]
            rw [if_neg (fun hc => hs hc.1), this]
            simp

/-! ### Parsing the Content-Length line -/

theorem trimBytes_of_no_space (xs : List ℕ)
    (h : ∀ b ∈ xs, isJsSpace b = false) : trimBytes xs = xs := by
  have hl : xs.dropWhile isJsSpace = xs := by
    cases xs with
    | nil => rfl
    | cons x xs' => exact List.dropWhile_cons_of_neg (by simp [h x (by simp)])
  rw [trimBytes, hl]
  have hr : xs.reverse.dropWhile isJsSpace = xs.reverse := by
    cases hx : xs.reverse with
    | nil => rfl
    | cons y ys =>
      have hy : y ∈ xs := by
        rw [← List.mem_reverse, hx]; simp
      exact List.dropWhile_cons_of_neg (by simp [h y hy])
  rw [hr, List.reverse_reverse]

theorem digit_not_space (b : ℕ) (h : 48 ≤ b ∧ b ≤ 57) :
    isJsSpace b = false := by
  simp only [isJsSpace, decide_eq_false_iff_not]
  omega

theorem trimBytes_space_digits (ds : List ℕ)
    (h : ∀ b ∈ ds, 48 ≤ b ∧ b ≤ 57) : trimBytes (32 :: ds) = ds := by
  have hds : ∀ b ∈ ds, isJsSpace b = false := fun b hb =>
    digit_not_space b (h b hb)
  have hl : (32 :: ds).dropWhile isJsSpace = ds.dropWhile isJsSpace := by
    apply List.dropWhile_cons_of_pos
    simp [isJsSpace]
  have hl2 : ds.dropWhile isJsSpace = ds := by
    cases ds with
    | nil => rfl
    | cons x xs' => exact List.dropWhile_cons_of_neg (by simp [hds x (by simp)])
  rw [trimBytes, hl, hl2]
  have hr : ds.reverse.dropWhile isJsSpace = ds.reverse := by
    cases hx : ds.reverse with
    | nil => rfl
    | cons y ys =>
      have hy : y ∈ ds := by
        rw [← List.mem_reverse, hx]; simp
      exact List.dropWhile_cons_of_neg (by simp [hds y hy])
  rw [hr, List.reverse_reverse]

theorem idxOfColon_header (ds : List ℕ) :
    idxOfColon (contentLengthLit ++ ds) = some 14 := by
  simp [contentLengthLit, idxOfColon, List.cons_append]

theorem jsNumBytes_digits (n : ℕ) : jsNumBytes (natDigits n) = some n := by
  have hb := natDigits_bounds n
  have hnn := natDigits_ne_nil n
  rw [jsNumBytes]
  simp only [trimBytes_of_no_space (natDigits n)
    (fun b hbm => digit_not_space b (hb b hbm))]
  rw [if_neg hnn, if_pos]
  · simp [natDigits_parse n]
  · simp only [List.all_eq_true]
    intro b hbm
    simpa using hb b hbm

/-- The complete header analysis of `readMessageSync` applied to the header
`writeMessage` produces: the parsed `Content-Length` is exactly `n`. -/
theorem headerAnalysis (n : ℕ) :
    (let headerRaw := (contentLengthLit ++ natDigits n) ++ [13, 10, 13, 10]
     let lines := (splitCRLF headerRaw).filter (fun l => l ≠ [])
     let m := headerEntries lines
     let raw :=
       match objGet m contentLengthKey with
       | some v => if v ≠ [] then v else [48]
       | none => [48]
     jsNumBytes raw) = some n := by
  have hb := natDigits_bounds n
  have hno13 : ∀ b ∈ contentLengthLit ++ natDigits n, b ≠ 13 := by
    intro b hbm
    rcases List.mem_append.mp hbm with hbm | hbm
    · fin_cases hbm <;> omega
    · have := hb b hbm
      omega
  have hsplit : splitCRLF ((contentLengthLit ++ natDigits n) ++ [13, 10, 13, 10]) =
      [contentLengthLit ++ natDigits n, [], []] := by
    rw [splitCRLF_append_no13 _ _ hno13]
    rw [show splitCRLF [13, 10, 13, 10] = ([[], [], []] : List (List ℕ)) from rfl]
    simp [List.modifyHead]
  simp only [hsplit]
  have hfilter :
      ([contentLengthLit ++ natDigits n, [], []].filter (fun l => l ≠ [])) =
        [contentLengthLit ++ natDigits n] := by
    simp [List.filter, contentLengthLit]
  rw [hfilter]
  have hline : headerEntries [contentLengthLit ++ natDigits n] =
      [(contentLengthKey, natDigits n)] := by
    rw [headerEntries]
    simp only [List.foldl_cons, List.foldl_nil, idxOfColon_header]
    rw [if_pos (by omega)]
    have htake : (contentLengthLit ++ natDigits n).take 14 =
        contentLengthLit.take 14 :=
      List.take_append_of_le_length (by simp [contentLengthLit])
    have hdrop : (contentLengthLit ++ natDigits n).drop 15 =
        contentLengthLit.drop 15 ++ natDigits n :=
      List.drop_append_of_le_length (by simp [contentLengthLit])
    rw [htake, hdrop]
    have : contentLengthLit.drop 15 = [32] := by rfl
    rw [this]
    have : (32 : ℕ) :: natDigits n = [32] ++ natDigits n := rfl
    rw [← this, trimBytes_space_digits (natDigits n) hb]
    rfl
  rw [hline]
  have hget : objGet [(contentLengthKey, natDigits n)] contentLengthKey =
      some (natDigits n) := by
    simp [objGet]
  rw [hget]
  simp only [if_pos (natDigits_ne_nil n)]
  exact jsNumBytes_digits n

/-! ### Claim C2 -/

theorem header_no10 (n : ℕ) :
    ∀ b ∈ contentLengthLit ++ natDigits n, b ≠ 10 := by
  intro b hbm
  rcases List.mem_append.mp hbm with hbm | hbm
  · fin_cases hbm <;> omega
  · have := natDigits_bounds n b hbm
    omega

/-- Decoding a frame whose declared length is `n`: the header analysis
yields `n`, then the body is taken whole iff at least `n` bytes remain. -/
theorem readMessageBytes_frame (n : ℕ) (body : List ℕ) :
    readMessageBytes (headerBytes n ++ body) =
      if n = 0 then none
      else if body.length < n then none else some (body.take n) := by
  have hstream : headerBytes n ++ body =
      (contentLengthLit ++ natDigits n) ++ 13 :: 10 :: 13 :: 10 :: body := by
    simp [headerBytes]
  rw [hstream, readMessageBytes]
  rw [readHeaderLoop_frame (contentLengthLit ++ natDigits n) (header_no10 n)
    [] body (by rfl)]
  simp only [List.nil_append]
  have hha := headerAnalysis n
  simp only at hha
  rw [hha]
  match n with
  | 0 => simp
  | m + 1 => simp

theorem readMessageBytes_writeMessageBytes (body : List ℕ) (h : body ≠ []) :
    readMessageBytes (writeMessageBytes body) = some body := by
  rw [writeMessageBytes, readMessageBytes_frame body.length body]
  rw [if_neg (by simpa using h), if_neg (by omega), List.take_length]

end Framing

/-! ## The sandboxed execution bridge (`src/mcp/claude_runner/server.ts`)

Strings handled by the bridge (paths, prompts, tool output) are modelled as
byte lists (`List ℕ`); `strBytes` injects a Lean string literal.  POSIX
paths are modelled in resolved form as lists of segments (`List (List ℕ)`),
and `resolvePath` embeds Node's `path.resolve` — absolute-path
normalization that eliminates `.`, `..` and empty segments. -/

namespace ClaudeRunner

/-- The UTF-8/ASCII bytes of a string literal. -/
def strBytes (s : String) : List ℕ := s.data.map Char.toNat

/-- Split a byte string on a separator byte (`String.prototype.split` with a
one-character separator). -/
def splitByte (sep : ℕ) : List ℕ → List (List ℕ)
  | [] => [[]]
  | b :: rest =>
    if b = sep then [] :: splitByte sep rest
    else
      match splitByte sep rest with
      | [] => [[b]]
      | h :: t => (b :: h) :: t

/-- `xs.startsWith(pre)`. -/
def bytesStartsWith (pre xs : List ℕ) : Bool := decide (xs.take pre.length = pre)

/-- `path.isAbsolute` (POSIX): begins with `/` (byte 47). -/
def isAbsolutePath (p : List ℕ) : Bool := bytesStartsWith [47] p

/-- The segment-normalization pass of `path.resolve` on an absolute path:
empty and `.` segments vanish, `..` pops the previous segment (and is
dropped at the root). -/
def normSegs (segs : List (List ℕ)) : List (List ℕ) :=
  segs.foldl
    (fun acc seg =>
      if seg = [] ∨ seg = [46] then acc
      else if seg = [46, 46] then acc.dropLast
      else acc ++ [seg])
    []

/-- `path.resolve(p)` against an (already resolved) process working
directory: an absolute `p` is normalized on its own, a relative `p` is
appended to the working directory first. -/
def resolvePath (cwd : List (List ℕ)) (p : List ℕ) : List (List ℕ) :=
  if isAbsolutePath p then normSegs (splitByte 47 p)
  else normSegs (cwd ++ splitByte 47 p)

/-- Length of the common segment prefix of two resolved paths (what
`path.relative` walks over). -/
def commonLen : List (List ℕ) → List (List ℕ) → ℕ
  | a :: as, b :: bs => if a = b then commonLen as bs + 1 else 0
  | _, _ => 0

/-- `Array.prototype.join("/")`. -/
def joinSlash : List (List ℕ) → List ℕ
  | [] => []
  | [s] => s
  | s :: rest => s ++ 47 :: joinSlash rest

/-- The segments of `path.relative(f, t)` for resolved absolute paths: one
`..` per leftover segment of `f`, then the leftover segments of `t`. -/
def relSegs (f t : List (List ℕ)) : List (List ℕ) :=
  let c := commonLen f t
  List.replicate (f.length - c) [46, 46] ++ t.drop c

/-- `path.relative(f, t)` (POSIX) for resolved absolute paths. -/
def relativePath (f t : List (List ℕ)) : List ℕ := joinSlash (relSegs f t)

/-- `isUnder` from `server.ts`: `rel === "" || (!rel.startsWith("..") &&
!path.isAbsolute(rel))` where `rel = path.relative(root, target)`. -/
def isUnder (root target : List (List ℕ)) : Bool :=
  let rel := relativePath root target
  decide (rel = []) ||
    (!(bytesStartsWith [46, 46] rel) && !(bytesStartsWith [47] rel))

/-- Render a resolved path back to a byte string (used by the error
message). -/
def renderPath (segs : List (List ℕ)) : List ℕ := 47 :: joinSlash segs

/-- `Array.prototype.join(sep)`. -/
def joinWith (sep : List ℕ) : List (List ℕ) → List ℕ
  | [] => []
  | [s] => s
  | s :: rest => s ++ sep ++ joinWith sep rest

/-- Result of `validateCwd`. -/
inductive CwdValidation where
  | ok (cwd : List (List ℕ))
  | error (msg : List ℕ)
deriving DecidableEq

/-- `validateCwd` from `server.ts`: resolve `rawCwd || process.cwd()` and
accept iff some allow-list root `isUnder`-contains it (byte 39 is the
apostrophe of the source's message). -/
def validateCwd (rawCwd : Option (List ℕ)) (procCwd : List (List ℕ))
    (roots : List (List (List ℕ))) : CwdValidation :=
  let cwd :=
    match rawCwd with
    | some s => if s = [] then procCwd else resolvePath procCwd s
    | none => procCwd
  if roots.any (fun root => isUnder root cwd) then CwdValidation.ok cwd
  else
    CwdValidation.error
      (strBytes "cwd " ++ [39] ++ renderPath cwd ++ [39] ++
        strBytes " is outside allowed roots: " ++
        joinWith (strBytes ", ") (roots.map renderPath))

/-- The spec's notion: `t` lies strictly below `r` in the directory tree
(as resolved segment lists). -/
def strictDescendant (r t : List (List ℕ)) : Prop := r <+: t ∧ r ≠ t

/-! ### Characterizing `isUnder` -/

theorem commonLen_of_prefix (r : List (List ℕ)) :
    ∀ t, r <+: t → commonLen r t = r.length := by
  induction r with
  | nil => intro t _; rfl
  | cons a as ih =>
    intro t hpre
    obtain ⟨u, hu⟩ := hpre
    rw [← hu, List.cons_append]
    show (if a = a then commonLen as (as ++ u) + 1 else 0) = (a :: as).length
    rw [if_pos rfl, ih (as ++ u) ⟨u, rfl⟩]
    rfl

theorem commonLen_lt_of_not_prefix (r : List (List ℕ)) :
    ∀ t, ¬(r <+: t) → commonLen r t < r.length := by
  induction r with
  | nil => intro t h; exact absurd (List.nil_prefix) h
  | cons a as ih =>
    intro t hpre
    cases t with
    | nil => simp [commonLen]
    | cons b bs =>
      by_cases hab : a = b
      · subst hab
        have hnp : ¬(as <+: bs) := fun h => hpre (List.cons_prefix_cons.mpr ⟨rfl, h⟩)
        show (if a = a then commonLen as bs + 1 else 0) < (a :: as).length
        rw [if_pos rfl]
        have := ih bs hnp
        simp only [List.length_cons]
        omega
      · show (if a = b then commonLen as bs + 1 else 0) < (a :: as).length
        rw [if_neg hab]
        simp

theorem joinSlash_cons_cons (s r : List ℕ) (rs : List (List ℕ)) :
    joinSlash (s :: r :: rs) = s ++ 47 :: joinSlash (r :: rs) := rfl

theorem joinSlash_ne_nil (s₀ : List ℕ) (rest : List (List ℕ)) (h : s₀ ≠ []) :
    joinSlash (s₀ :: rest) ≠ [] := by
  cases rest with
  | nil => exact h
  | cons r rs =>
    rw [joinSlash_cons_cons]
    simp [h]

theorem joinSlash_take_one (x : ℕ) (s' : List ℕ) (rest : List (List ℕ)) :
    (joinSlash ((x :: s') :: rest)).take 1 = [x] := by
  cases rest with
  | nil => simp [joinSlash]
  | cons r rs => rw [joinSlash_cons_cons]; simp

theorem joinSlash_take_two (s₀ : List ℕ) (rest : List (List ℕ))
    (hne : s₀ ≠ []) :
    ((joinSlash (s₀ :: rest)).take 2 = [46, 46]) ↔ (s₀.take 2 = [46, 46]) := by
  cases rest with
  | nil => rfl
  | cons r rs =>
    rw [joinSlash_cons_cons]
    match s₀ with
    | [] => exact absurd rfl hne
    | [x] => simp
    | x :: y :: s' => simp

theorem isUnder_iff (r t : List (List ℕ))
    (ht : ∀ s ∈ t, s ≠ [] ∧ 47 ∉ s) :
    isUnder r t = true ↔
      (r = t ∨ (strictDescendant r t ∧
        ∀ s₀ ∈ (t.drop r.length).head?, bytesStartsWith [46, 46] s₀ = false)) := by
  by_cases hpre : r <+: t
  · have hc : commonLen r t = r.length := commonLen_of_prefix r t hpre
    by_cases heq : r = t
    · subst heq
      have hrel : relSegs r r = [] := by
        simp [relSegs, hc, List.drop_length]
      simp [isUnder, relativePath, hrel, joinSlash]
    · obtain ⟨u, hu⟩ := hpre
      have hune : u ≠ [] := by
        intro h
        exact heq (by rw [← hu, h, List.append_nil])
      obtain ⟨s₀, urest, hu2⟩ := List.exists_cons_of_ne_nil hune
      subst hu2
      have hdrop : t.drop r.length = s₀ :: urest := by
        rw [← hu, List.drop_left]
      have hs₀t : s₀ ∈ t := by
        rw [← hu]
        simp
      obtain ⟨hs₀ne, hs₀47⟩ := ht s₀ hs₀t
      obtain ⟨x, s', hx⟩ := List.exists_cons_of_ne_nil hs₀ne
      have hx47 : x ≠ 47 := by
        intro h
        apply hs₀47
        rw [hx, h]
        simp
      have hrel : relSegs r t = s₀ :: urest := by
        simp [relSegs, hc, hdrop]
      have hrelne : joinSlash (s₀ :: urest) ≠ [] := joinSlash_ne_nil s₀ urest hs₀ne
      have h47take : (joinSlash (s₀ :: urest)).take 1 ≠ [47] := by
        rw [hx, joinSlash_take_one]
        simp [hx47]
      have h46iff := joinSlash_take_two s₀ urest hs₀ne
      have hsd : strictDescendant r t := ⟨⟨s₀ :: urest, hu⟩, heq⟩
      have hhead : (t.drop r.length).head? = some s₀ := by rw [hdrop]; rfl
      by_cases hb : s₀.take 2 = [46, 46]
      · have hj : (joinSlash (s₀ :: urest)).take 2 = [46, 46] := h46iff.mpr hb
        have hval : isUnder r t = false := by
          simp only [isUnder, relativePath, hrel, bytesStartsWith,
            show (([46, 46] : List ℕ).length) = 2 from rfl]
          rw [decide_eq_false hrelne, decide_eq_true hj]
          simp
        apply iff_of_false (by simp [hval])
        rintro (h | ⟨_, h⟩)
        · exact heq h
        · have hfalse := h s₀ (by simp [hhead])
          rw [bytesStartsWith, show (([46, 46] : List ℕ).length) = 2 from rfl,
            decide_eq_true hb] at hfalse
          exact absurd hfalse (by simp)
      · have hj : (joinSlash (s₀ :: urest)).take 2 ≠ [46, 46] := fun hcon =>
          hb (h46iff.mp hcon)
        have hval : isUnder r t = true := by
          simp only [isUnder, relativePath, hrel, bytesStartsWith,
            show (([46, 46] : List ℕ).length) = 2 from rfl,
            show (([47] : List ℕ).length) = 1 from rfl]
          rw [decide_eq_false hrelne, decide_eq_false hj, decide_eq_false h47take]
          simp
        apply iff_of_true hval
        right
        refine ⟨hsd, ?_⟩
        intro s₀' hs₀'
        rw [hhead] at hs₀'
        have heq' : s₀' = s₀ := by simpa using hs₀'.symm
        subst heq'
        rw [bytesStartsWith, show (([46, 46] : List ℕ).length) = 2 from rfl]
        exact decide_eq_false hb
  · have hc : commonLen r t < r.length := commonLen_lt_of_not_prefix r t hpre
    have hk : r.length - commonLen r t = (r.length - commonLen r t - 1) + 1 := by
      omega
    have hrel : relSegs r t =
        [46, 46] :: (List.replicate (r.length - commonLen r t - 1) [46, 46] ++
          t.drop (commonLen r t)) := by
      rw [relSegs]
      rw [hk, List.replicate_succ]
      simp
    have h46 : (joinSlash (relSegs r t)).take 2 = [46, 46] := by
      rw [hrel]
      rcases hrest : List.replicate (r.length - commonLen r t - 1)
          ([46, 46] : List ℕ) ++ t.drop (commonLen r t) with _ | ⟨a, as⟩
      · simp [joinSlash]
      · rw [joinSlash_cons_cons]
        simp
    have hrelne : joinSlash (relSegs r t) ≠ [] := by
      rw [hrel]
      exact joinSlash_ne_nil _ _ (by simp)
    have hval : isUnder r t = false := by
      simp only [isUnder, relativePath, bytesStartsWith,
        show (([46, 46] : List ℕ).length) = 2 from rfl]
      rw [decide_eq_false hrelne, decide_eq_true h46]
      simp
    apply iff_of_false (by simp [hval])
    rintro (h | ⟨⟨hp, _⟩, _⟩)
    · exact hpre (h ▸ List.prefix_refl r)
    · exact hpre hp

end ClaudeRunner

/-! ## The model router (`model_router/server.ts`)

The HTTP effect of `httpPostJson` is modelled by an oracle
`http : HttpRequest → HttpResponse` passed to `callModel`, which also
returns the list of requests it issued; an empty list is the statement
that no network call was made. -/

namespace ModelRouter

/-- `ModelSpec` from the source.  `provider` is a raw string: `toModelSpec`
accepts any value there (the `inputSchema` enum is advisory only), and
`callModel` handles unknown providers with its final `else`. -/
structure ModelSpec where
  id : String
  provider : String
  model : String
  api_url : String
  api_key : String
  system_prompt : String
deriving DecidableEq, Inhabited

/-- The `{code, text}` result of `callModel`. -/
structure CallResult where
  code : ℤ
  text : String
deriving DecidableEq

/-- One HTTP POST as assembled by `callModel`/`httpPostJson`. -/
structure HttpRequest where
  url : String
  headers : List (String × String)
  payload : JsVal
  timeoutSec : Option ℚ

/-- What `httpPostJson` resolves with: the status code (`0` when no response
was obtained), the parsed JSON body (`{}` on parse failure) and the raw
body text. -/
structure HttpResponse where
  status : ℤ
  parsed : JsVal
  raw : String

/-! ### JSON.stringify(x, null, 2) -/

/-- A lowercase hexadecimal digit. -/
def hexChar (n : ℕ) : Char := Char.ofNat (if n < 10 then 48 + n else 87 + n)

/-- JSON string escaping of one character. -/
def jsonEscapeChar (c : Char) : String :=
  if c.toNat = 34 then String.mk [Char.ofNat 92, Char.ofNat 34]
  else if c.toNat = 92 then String.mk [Char.ofNat 92, Char.ofNat 92]
  else if c.toNat = 8 then String.mk [Char.ofNat 92, Char.ofNat 98]
  else if c.toNat = 9 then String.mk [Char.ofNat 92, Char.ofNat 116]
  else if c.toNat = 10 then String.mk [Char.ofNat 92, Char.ofNat 110]
  else if c.toNat = 12 then String.mk [Char.ofNat 92, Char.ofNat 102]
  else if c.toNat = 13 then String.mk [Char.ofNat 92, Char.ofNat 114]
  else if c.toNat < 32 then
    String.mk [Char.ofNat 92, Char.ofNat 117, Char.ofNat 48, Char.ofNat 48,
      hexChar (c.toNat / 16), hexChar (c.toNat % 16)]
  else String.singleton c

/-- A JSON string literal. -/
def jsonQuote (s : String) : String :=
  String.singleton (Char.ofNat 34) ++ String.join (s.data.map jsonEscapeChar) ++
    String.singleton (Char.ofNat 34)

/-- `lvl` levels of two-space indentation. -/
def spaces : ℕ → String
  | 0 => ""
  | n + 1 => "  " ++ spaces n

mutual

/-- `JSON.stringify(v, null, 2)` at indentation level `lvl` (`undefined`
only occurs below array elements in JavaScript, where it prints as
`null`). -/
def jsonStringify (lvl : ℕ) : JsVal → String
  | JsVal.str s => jsonQuote s
  | JsVal.num q => toString q
  | JsVal.boolean b => if b then "true" else "false"
  | JsVal.null => "null"
  | JsVal.undef => "null"
  | JsVal.arr [] => "[]"
  | JsVal.arr (x :: xs) =>
    "[\n" ++ jsonItems (lvl + 1) (x :: xs) ++ "\n" ++ spaces lvl ++ "]"
  | JsVal.obj [] => "\x7b\x7d"
  | JsVal.obj (f :: fs) =>
    "\x7b\n" ++ jsonFields (lvl + 1) (f :: fs) ++ "\n" ++ spaces lvl ++ "\x7d"

def jsonItems (lvl : ℕ) : List JsVal → String
  | [] => ""
  | [x] => spaces lvl ++ jsonStringify lvl x
  | x :: y :: xs =>
    spaces lvl ++ jsonStringify lvl x ++ ",\n" ++ jsonItems lvl (y :: xs)

def jsonFields (lvl : ℕ) : List (String × JsVal) → String
  | [] => ""
  | [(k, v)] => spaces lvl ++ jsonQuote k ++ ": " ++ jsonStringify lvl v
  | (k, v) :: g :: fs =>
    spaces lvl ++ jsonQuote k ++ ": " ++ jsonStringify lvl v ++ ",\n" ++
      jsonFields lvl (g :: fs)

end

/-- A numeric limit as it appears in a JSON payload: `NaN` (`none`)
serializes as `null`. -/
def numOrNaN (o : Option ℚ) : JsVal := o.elim JsVal.null JsVal.num

/-! ### Response-text extraction -/

/-- `extractOpenAIText` from the source. -/
def extractOpenAIText (resp : JsVal) : String :=
  let choices := match jsField resp "choices" with
    | JsVal.arr xs => xs
    | _ => []
  match choices with
  | [] => jsonStringify 0 resp
  | c0 :: _ =>
    let isObjLike := match c0 with
      | JsVal.obj _ => true
      | JsVal.arr _ => true
      | _ => false
    if !isObjLike then jsonStringify 0 resp
    else
      let content := jsField (jsField c0 "message") "content"
      match content with
      | JsVal.str s => s
      | JsVal.arr items =>
        String.intercalate "\n"
          (items.filterMap (fun item =>
            match item with
            | JsVal.obj _ =>
              match jsField item "text" with
              | JsVal.str s => some s
              | _ => none
            | JsVal.arr _ =>
              match jsField item "text" with
              | JsVal.str s => some s
              | _ => none
            | _ => none))
      | JsVal.null => ""
      | JsVal.undef => ""
      | other => jsToString other

/-- `extractAnthropicText` from the source. -/
def extractAnthropicText (resp : JsVal) : String :=
  let content := match jsField resp "content" with
    | JsVal.arr xs => xs
    | _ => []
  let chunks := content.filterMap (fun item =>
    match item with
    | JsVal.obj _ =>
      match jsField item "type", jsField item "text" with
      | JsVal.str "text", JsVal.str s => some s
      | _, _ => none
    | JsVal.arr _ =>
      match jsField item "type", jsField item "text" with
      | JsVal.str "text", JsVal.str s => some s
      | _, _ => none
    | _ => none)
  let joined := jsTrim (String.intercalate "\n" chunks)
  if joined ≠ "" then joined else jsonStringify 0 resp

/-- `extractGeminiText` from the source. -/
def extractGeminiText (resp : JsVal) : String :=
  let candidates := match jsField resp "candidates" with
    | JsVal.arr xs => xs
    | _ => []
  match candidates with
  | [] => jsonStringify 0 resp
  | c0 :: _ =>
    let isObjLike := match c0 with
      | JsVal.obj _ => true
      | JsVal.arr _ => true
      | _ => false
    if !isObjLike then jsonStringify 0 resp
    else
      let content := jsOr (jsField c0 "content") (JsVal.obj [])
      let parts := match jsField content "parts" with
        | JsVal.arr xs => xs
        | _ => []
      let chunks := parts.filterMap (fun part =>
        match part with
        | JsVal.obj _ =>
          match jsField part "text" with
          | JsVal.str s => some s
          | _ => none
        | JsVal.arr _ =>
          match jsField part "text" with
          | JsVal.str s => some s
          | _ => none
        | _ => none)
      let joined := jsTrim (String.intercalate "\n" chunks)
      if joined ≠ "" then joined else jsonStringify 0 resp

/-! ### The gateway `callModel` -/

/-- `(...).replace(/\/+$/g, "")`: strip trailing slashes. -/
def rstripSlashes (s : String) : String :=
  String.mk ((s.data.reverse.dropWhile (fun c => c.toNat = 47)).reverse)

/-- `encodeURIComponent` on the ASCII strings the gateway embeds in URLs
(multi-byte UTF-8 expansion is not modelled; every claim input is ASCII). -/
def encodeURIComponent (s : String) : String :=
  String.join (s.data.map (fun c =>
    if (48 ≤ c.toNat ∧ c.toNat ≤ 57) ∨ (65 ≤ c.toNat ∧ c.toNat ≤ 90) ∨
        (97 ≤ c.toNat ∧ c.toNat ≤ 122) ∨
        c.toNat ∈ [45, 46, 95, 126, 33, 42, 39, 40, 41] then
      String.singleton c
    else
      String.mk [Char.ofNat 37, hexChar (c.toNat / 16 % 16),
        hexChar (c.toNat % 16)]))

/-- `spec.system_prompt || "You are a helpful assistant."`. -/
def systemPromptOr (spec : ModelSpec) : String :=
  if spec.system_prompt ≠ "" then spec.system_prompt
  else "You are a helpful assistant."

/-- The chat-style payload `callModel` builds for `openai` and `custom`. -/
def chatPayload (spec : ModelSpec) (prompt : String) (temperature : Option ℚ) :
    JsVal :=
  JsVal.obj
    [("model", JsVal.str spec.model),
     ("messages", JsVal.arr
       [JsVal.obj [("role", JsVal.str "system"),
                   ("content", JsVal.str (systemPromptOr spec))],
        JsVal.obj [("role", JsVal.str "user"),
                   ("content", JsVal.str prompt)]]),
     ("temperature", numOrNaN temperature)]

/-- The payload `callModel` builds for `anthropic`. -/
def anthropicPayload (spec : ModelSpec) (prompt : String)
    (maxTokens : Option ℚ) : JsVal :=
  JsVal.obj
    [("model", JsVal.str spec.model),
     ("system", JsVal.str (systemPromptOr spec)),
     ("max_tokens", numOrNaN maxTokens),
     ("messages", JsVal.arr
       [JsVal.obj [("role", JsVal.str "user"),
                   ("content", JsVal.str prompt)]])]

/-- The payload `callModel` builds for `gemini`. -/
def geminiPayload (spec : ModelSpec) (prompt : String)
    (temperature maxTokens : Option ℚ) : JsVal :=
  JsVal.obj
    [("contents", JsVal.arr
       [JsVal.obj [("role", JsVal.str "user"),
                   ("parts", JsVal.arr [JsVal.obj [("text", JsVal.str prompt)]])]]),
     ("systemInstruction", JsVal.obj
       [("parts", JsVal.arr
         [JsVal.obj [("text", JsVal.str (systemPromptOr spec))]])]),
     ("generationConfig", JsVal.obj
       [("temperature", numOrNaN temperature),
        ("maxOutputTokens", numOrNaN maxTokens)])]

/-- The common tail of `callModel` after a URL, headers and payload have
been assembled: perform the request through the oracle; HTTP-layer failures
(`status >= 400 || status === 0`) surface `{status || 1, raw}` without
running an extractor, success runs the provider's extractor. -/
def performCall (http : HttpRequest → HttpResponse) (spec : ModelSpec)
    (url : String) (headers : List (String × String)) (payload : JsVal)
    (timeoutSec : Option ℚ) : CallResult × List HttpRequest :=
  let req : HttpRequest :=
    { url := url, headers := headers, payload := payload,
      timeoutSec := timeoutSec }
  let result := http req
  if result.status ≥ 400 ∨ result.status = 0 then
    ({ code := if result.status = 0 then 1 else result.status,
       text := result.raw }, [req])
  else if spec.provider = "openai" ∨ spec.provider = "custom" then
    ({ code := 0, text := extractOpenAIText result.parsed }, [req])
  else if spec.provider = "anthropic" then
    ({ code := 0, text := extractAnthropicText result.parsed }, [req])
  else
    ({ code := 0, text := extractGeminiText result.parsed }, [req])

/-- `callModel` from the source, with the HTTP effect as an oracle and an
explicit trace of the requests issued (empty on the pre-network failure
paths). -/
def callModel (http : HttpRequest → HttpResponse) (spec : ModelSpec)
    (prompt : String) (timeoutSec temperature maxTokens : Option ℚ) :
    CallResult × List HttpRequest :=
  if spec.provider = "openai" then
    if spec.api_key = "" then
      ({ code := 2, text := "[" ++ spec.id ++ "] missing api_key for openai." },
       [])
    else
      let base := rstripSlashes
        (if spec.api_url ≠ "" then spec.api_url else "https://api.openai.com/v1")
      performCall http spec (base ++ "/chat/completions")
        [("Authorization", "Bearer " ++ spec.api_key)]
        (chatPayload spec prompt temperature) timeoutSec
  else if spec.provider = "anthropic" then
    if spec.api_key = "" then
      ({ code := 2,
         text := "[" ++ spec.id ++ "] missing api_key for anthropic." }, [])
    else
      let url := rstripSlashes
        (if spec.api_url ≠ "" then spec.api_url
         else "https://api.anthropic.com/v1/messages")
      performCall http spec url
        [("x-api-key", spec.api_key), ("anthropic-version", "2023-06-01")]
        (anthropicPayload spec prompt maxTokens) timeoutSec
  else if spec.provider = "gemini" then
    if spec.api_url ≠ "" then
      let headers := if spec.api_key ≠ "" then [("x-goog-api-key", spec.api_key)]
        else []
      performCall http spec spec.api_url headers
        (geminiPayload spec prompt temperature maxTokens) timeoutSec
    else if spec.api_key = "" then
      ({ code := 2, text := "[" ++ spec.id ++ "] missing api_key for gemini." },
       [])
    else
      performCall http spec
        ("https://generativelanguage.googleapis.com/v1beta/models/" ++
          encodeURIComponent spec.model ++ ":generateContent?key=" ++
          encodeURIComponent spec.api_key)
        [] (geminiPayload spec prompt temperature maxTokens) timeoutSec
  else if spec.provider = "custom" then
    if spec.api_url = "" then
      ({ code := 2,
         text := "[" ++ spec.id ++ "] missing api_url for custom provider." },
       [])
    else
      let headers := if spec.api_key ≠ "" then
          [("Authorization", "Bearer " ++ spec.api_key)]
        else []
      performCall http spec spec.api_url headers
        (chatPayload spec prompt temperature) timeoutSec
  else
    ({ code := 2,
       text := "[" ++ spec.id ++ "] unsupported provider: " ++ spec.provider },
     [])

/-- `toModelSpec` from the source.  A JavaScript array passes the
`typeof input === "object"` guard but has no string properties, so it falls
to the same `null` as non-objects. -/
def toModelSpec (input : JsVal) (fallbackId : String) : Option ModelSpec :=
  match input with
  | JsVal.obj _ =>
    let provider := asciiLower (jsToString (jsOr (jsField input "provider")
      (JsVal.str "")))
    let model := jsTrim (jsToString (jsOr (jsField input "model")
      (JsVal.str "")))
    if provider = "" ∨ model = "" then none
    else
      some
        { id := jsToString (jsOr (jsField input "id") (JsVal.str fallbackId)),
          provider := provider,
          model := model,
          api_url := jsToString (jsOr (jsField input "api_url") (JsVal.str "")),
          api_key := jsToString (jsOr (jsField input "api_key") (JsVal.str "")),
          system_prompt := jsToString (jsOr (jsField input "system_prompt")
            (JsVal.str "")) }
  | _ => none

/-! ### The brainstorm orchestration (`runBrainstorm`)

The gateway is abstracted as `gw : ModelSpec → BPrompt → CallLimits →
CallResult`; `BPrompt` carries the structured data the source interpolates
into its prompt-template strings, and `renderPrompt` renders the literal
string, so the concrete gateway of `callTool` is
`fun m p l => (callModel http m (renderPrompt p) ...).1`.  The brainstorm
theorems quantify over every `gw`, hence cover that one. -/

/-- One debate round of the report. -/
structure DebateRound where
  round : ℕ
  responses : List (String × String)
deriving DecidableEq

/-- The shared numeric limits of one tool call. -/
structure CallLimits where
  timeoutSec : Option ℚ
  temperature : Option ℚ
  maxTokens : Option ℚ
deriving DecidableEq

/-- The structured content of each prompt `runBrainstorm` builds. -/
inductive BPrompt where
  | proposal (requirement : String)
  | debate (requirement : String) (others : List (String × String))
  | synthesis (requirement : String) (proposals : List (String × String))
      (debates : List DebateRound)
deriving DecidableEq

/-- Abstract gateway type. -/
def GW : Type := ModelSpec → BPrompt → CallLimits → CallResult

/-- A string map as a JSON object value. -/
def mapToJsVal (m : List (String × String)) : JsVal :=
  JsVal.obj (m.map (fun kv => (kv.1, JsVal.str kv.2)))

/-- A debate round as a JSON value. -/
def debateToJsVal (d : DebateRound) : JsVal :=
  JsVal.obj [("round", JsVal.num d.round),
             ("responses", mapToJsVal d.responses)]

/-- `[...].join("\n")`. -/
def joinLines (xs : List String) : String := String.intercalate "\n" xs

/-- The literal prompt strings of `runBrainstorm`. -/
def renderPrompt : BPrompt → String
  | BPrompt.proposal req =>
    joinLines
      ["You are participating in a multi-model architecture brainstorm.",
       "Provide a concise solution proposal for the requirement.",
       "Cover: stack choices, architecture, risks, and rollout steps.",
       "", "Requirement:", req, ""]
  | BPrompt.debate req others =>
    joinLines
      ["You are in a technical debate. Critique the other proposals only.",
       "Output must include: strongest point, weakest assumption, missing risk, better alternative.",
       "", "Requirement:", req, "", "Other proposals:",
       jsonStringify 0 (mapToJsVal others), ""]
  | BPrompt.synthesis req props debs =>
    joinLines
      ["You are the synthesizer. Produce final architecture decision and roadmap.",
       "Output sections:", "1) Decision summary", "2) Tradeoffs",
       "3) Roadmap rounds", "4) Task decomposition strategy",
       "5) Validation and acceptance policy",
       "", "Requirement:", req, "", "Proposals:",
       jsonStringify 0 (mapToJsVal props), "", "Debate history:",
       jsonStringify 0 (JsVal.arr (debs.map debateToJsVal)), ""]

/-- One participant of the proposal stage: a failing gateway call still
stores a `(failed)`-tagged entry and appends a labelled error. -/
def proposalStep (gw : GW) (req : String) (lims : CallLimits)
    (acc : List (String × String) × List String) (m : ModelSpec) :
    List (String × String) × List String :=
  let call := gw m (BPrompt.proposal req) lims
  if call.code ≠ 0 then
    (objSet acc.1 m.id ("(failed) " ++ call.text),
     acc.2 ++ ["[proposal:" ++ m.id ++ "] code=" ++ toString call.code])
  else (objSet acc.1 m.id (jsTrim call.text), acc.2)

/-- The proposal stage: every participant in list order. -/
def proposalStage (gw : GW) (req : String) (lims : CallLimits)
    (ps : List ModelSpec) : List (String × String) × List String :=
  ps.foldl (proposalStep gw req lims) ([], [])

/-- The `others` map a participant is shown: the current input pool with
the acting participant's own entry removed. -/
def othersOf (inputs : List (String × String)) (id : String) :
    List (String × String) :=
  inputs.filter (fun kv => kv.1 ≠ id)

/-- One participant of one debate round. -/
def debateStep (gw : GW) (req : String) (lims : CallLimits)
    (inputs : List (String × String)) (i : ℕ)
    (acc : List (String × String) × List String) (m : ModelSpec) :
    List (String × String) × List String :=
  let call := gw m (BPrompt.debate req (othersOf inputs m.id)) lims
  if call.code ≠ 0 then
    (objSet acc.1 m.id ("(failed) " ++ call.text),
     acc.2 ++ ["[debate-r" ++ toString i ++ ":" ++ m.id ++ "] code=" ++
       toString call.code])
  else (objSet acc.1 m.id (jsTrim call.text), acc.2)

/-- One full debate round over all participants. -/
def debateRoundRun (gw : GW) (req : String) (lims : CallLimits)
    (ps : List ModelSpec) (i : ℕ) (inputs : List (String × String)) :
    List (String × String) × List String :=
  ps.foldl (debateStep gw req lims inputs i) ([], [])

/-- The debate loop: `n` rounds starting at round number `i`, threading the
previous round's responses as the next round's input pool. -/
def runDebates (gw : GW) (req : String) (lims : CallLimits)
    (ps : List ModelSpec) :
    ℕ → ℕ → List (String × String) →
      List DebateRound × List (String × String) × List String
  | 0, _, inputs => ([], inputs, [])
  | n + 1, i, inputs =>
    let step := debateRoundRun gw req lims ps i inputs
    let rest := runDebates gw req lims ps n (i + 1) step.1
    (⟨i, step.1⟩ :: rest.1, rest.2.1, step.2 ++ rest.2.2)

/-- The structured `result` object `runBrainstorm` assembles
(`debate_rounds` stores the clamped numeric value; `none` models `NaN`). -/
structure BrainstormReport where
  requirement : String
  participants : List String
  debate_rounds : Option ℚ
  synthesis_by : String
  proposals : List (String × String)
  debates : List DebateRound
  synthesis : String
  errors : List String
deriving DecidableEq

/-- The number of iterations `for (let i = 1; i <= d; i += 1)` executes for
the clamped `d` (`0 ≤ d ≤ 5`): `⌊d⌋`, and `0` when `d` is `NaN`. -/
def executedRounds (droundsVal : Option ℚ) : ℕ :=
  match droundsVal with
  | some q => q.floor.toNat
  | none => 0

/-- The brainstorm pipeline after argument validation: proposal stage, then
the debate rounds, then one synthesis call to the participant selected by
`synthBy` (first participant when unmatched). -/
def brainstormPipeline (gw : GW) (req : String) (lims : CallLimits)
    (ps : List ModelSpec) (droundsVal : Option ℚ) (synthBy : String) :
    BrainstormReport :=
  let prop := proposalStage gw req lims ps
  let debs := runDebates gw req lims ps (executedRounds droundsVal) 1 prop.1
  let synthModel := (ps.find? (fun m => m.id = synthBy)).getD ps.headI
  let synth := gw synthModel (BPrompt.synthesis req prop.1 debs.1) lims
  let serrs := if synth.code ≠ 0 then
      ["[synthesis:" ++ synthModel.id ++ "] code=" ++ toString synth.code]
    else []
  { requirement := req,
    participants := ps.map (fun m => m.id),
    debate_rounds := droundsVal,
    synthesis_by := synthModel.id,
    proposals := prop.1,
    debates := debs.1,
    synthesis := synth.text,
    errors := prop.2 ++ debs.2.2 ++ serrs }

/-- The three possible outcomes of `runBrainstorm`. -/
inductive BrainstormOutcome where
  | invalidRequirement
  | invalidParticipants
  | report (r : BrainstormReport)
deriving DecidableEq

/-- `Math.max(0, Math.min(5, x))`; `NaN` (`none`) propagates. -/
def clampRounds (v : Option ℚ) : Option ℚ :=
  v.map (fun q => max 0 (min 5 q))

/-- `runBrainstorm` from the source up to the `ToolResult` wrapper:
validate the requirement, keep the `participants` entries `toModelSpec`
accepts (position `idx` falls back to id `model_<idx+1>`), then run the
pipeline. -/
def runBrainstormCore (gw : GW) (args : JsVal) : BrainstormOutcome :=
  let requirement := jsTrim (jsToString (jsOr (jsField args "requirement")
    (JsVal.str "")))
  if requirement = "" then BrainstormOutcome.invalidRequirement
  else
    let rawParticipants := match jsField args "participants" with
      | JsVal.arr xs => xs
      | _ => []
    let participants := rawParticipants.enum.filterMap
      (fun p => toModelSpec p.2 ("model_" ++ toString (p.1 + 1)))
    match participants with
    | [] => BrainstormOutcome.invalidParticipants
    | p0 :: _ =>
      let droundsVal := clampRounds (jsNumberOr (jsField args "debate_rounds") 1)
      let synthBy := jsToString (jsOr (jsField args "synthesis_by")
        (JsVal.str p0.id))
      let lims : CallLimits :=
        { timeoutSec := jsNumberOr (jsField args "timeout_sec") 180,
          temperature := jsNumberOr (jsField args "temperature") temperatureDefault,
          maxTokens := jsNumberOr (jsField args "max_tokens") 2048 }
      BrainstormOutcome.report
        (brainstormPipeline gw requirement lims participants droundsVal synthBy)

/-- The `ToolResult` shape: the list of text segments and the error flag. -/
structure ToolRes where
  content : List String
  isError : Bool
deriving DecidableEq

/-- The report as a JSON value (field order as in the source). -/
def reportToJsVal (r : BrainstormReport) : JsVal :=
  JsVal.obj
    [("requirement", JsVal.str r.requirement),
     ("participants", JsVal.arr (r.participants.map JsVal.str)),
     ("debate_rounds", numOrNaN r.debate_rounds),
     ("synthesis_by", JsVal.str r.synthesis_by),
     ("proposals", mapToJsVal r.proposals),
     ("debates", JsVal.arr (r.debates.map debateToJsVal)),
     ("synthesis", JsVal.str r.synthesis),
     ("errors", JsVal.arr (r.errors.map JsVal.str))]

/-- The `ToolResult` `runBrainstorm` returns: validation failures are error
results, and a completed run is an error iff the error log is non-empty
(`isError: errors.length > 0`). -/
def brainstormToolResult (o : BrainstormOutcome) : ToolRes :=
  match o with
  | BrainstormOutcome.invalidRequirement =>
    { content := ["`requirement` is required."], isError := true }
  | BrainstormOutcome.invalidParticipants =>
    { content := ["`participants` must include at least one valid model."],
      isError := true }
  | BrainstormOutcome.report r =>
    { content := [jsonStringify 0 (reportToJsVal r)],
      isError := decide (r.errors ≠ []) }

/-- `callTool` from the model-router server. -/
def callTool (http : HttpRequest → HttpResponse) (name : String)
    (args : JsVal) : ToolRes :=
  if name = "model.one_shot" then
    let spec? := toModelSpec (jsField args "model") "model_1"
    let prompt := jsTrim (jsToString (jsOr (jsField args "prompt")
      (JsVal.str "")))
    match spec? with
    | none => { content := ["Invalid model or missing `prompt`."],
                isError := true }
    | some spec =>
      if prompt = "" then
        { content := ["Invalid model or missing `prompt`."], isError := true }
      else
        let call := (callModel http spec prompt
          (jsNumberOr (jsField args "timeout_sec") 180)
          (jsNumberOr (jsField args "temperature") temperatureDefault)
          (jsNumberOr (jsField args "max_tokens") 2048)).1
        { content := [call.text], isError := decide (call.code ≠ 0) }
  else if name = "model.brainstorm" then
    brainstormToolResult (runBrainstormCore
      (fun m p l => (callModel http m (renderPrompt p) l.timeoutSec
        l.temperature l.maxTokens).1)
      args)
  else
    { content := ["Unknown tool: " ++ name], isError := true }

end ModelRouter

/-! ## The execution bridge proper (`runClaude`, `callTool` of claude_runner)

`runClaude` races the child process against a `setTimeout` timer.  The
child is abstracted as a `ChildBehavior`: either its `close` event would
fire at a given wall-clock instant (with an exit code, `null` possible),
or its `error` event fires (spawn failure).  When the timer fires first the
child is killed with SIGKILL and the close handler, seeing `timedOut`,
reports exit code `124`. -/

namespace ClaudeRunner

/-- The `{exitCode, stdout, stderr, timedOut}` result of `runClaude`. -/
structure RunRes where
  exitCode : ℤ
  stdout : List ℕ
  stderr : List ℕ
  timedOut : Bool
deriving DecidableEq

/-- The abstracted behavior of one spawned child process. -/
inductive ChildBehavior where
  /-- The child would close on its own at `atMs` milliseconds with exit code
  `code` (`none` models a `null` code), having produced `out`/`err`. -/
  | closes (code : Option ℤ) (atMs : ℚ) (out err : List ℕ)
  /-- The `error` event fires (e.g. the binary is missing). -/
  | spawnFails (msg : List ℕ)
deriving DecidableEq

/-- `runClaude` from `server.ts` over the discrete child model: the timer is
set for `timeoutSec * 1000` ms (`setTimeout` treats a `NaN` delay as `0`);
if it fires strictly before the child's own close, the child is killed and
the close handler reports `exitCode 124, timedOut: true`; otherwise the
result is the child's code (`?? 1` for `null`) with `timedOut: false`; an
`error` event resolves `{exitCode 1, timedOut: false}`. -/
def runClaude (child : ChildBehavior) (timeoutSec : Option ℚ) : RunRes :=
  match child with
  | ChildBehavior.spawnFails msg =>
    { exitCode := 1, stdout := [], stderr := msg, timedOut := false }
  | ChildBehavior.closes code atMs out err =>
    let timerMs := (timeoutSec.getD 0) * 1000
    if timerMs < atMs then
      { exitCode := 124, stdout := out, stderr := err, timedOut := true }
    else
      { exitCode := code.getD 1, stdout := out, stderr := err,
        timedOut := false }

/-- Bytes back to a Lean string (for the runner's text output). -/
def bytesToStr (b : List ℕ) : String := String.mk (b.map Char.ofNat)

/-- `content.slice(0, maxChars)`; a `NaN` bound slices to the empty
string. -/
def sliceChars (content : String) (maxChars : Option ℚ) : String :=
  match maxChars with
  | some q => String.mk (content.data.take q.floor.toNat)
  | none => ""

/-- `appendFilesContext` from `server.ts`: inline each context file
(resolved against the validated cwd) into the prompt, truncated to
`maxChars`, with `(missing)` / `(read failed)` placeholders.  The
filesystem is abstracted by the `fsx` (existsSync) and `fsr` (readFile)
oracles, keyed by the rendered absolute path. -/
def appendFilesContext (fsx : List ℕ → Bool) (fsr : List ℕ → Option String)
    (prompt : String) (cwd : List (List ℕ)) (files : List String)
    (maxChars : Option ℚ) : String :=
  if files = [] then prompt
  else
    String.intercalate "\n"
      ([prompt, "", "Context files:"] ++
        files.foldl
          (fun acc rel =>
            let full := renderPath (resolvePath cwd (strBytes rel))
            if fsx full then
              acc ++ ["\n[FILE: " ++ rel ++ "]",
                sliceChars ((fsr full).getD "(read failed)") maxChars]
            else acc ++ ["\n[FILE: " ++ rel ++ "]", "(missing)"])
          [])

/-- `formatRun` from `server.ts`. -/
def formatRun (w : RunRes) (cwd : List (List ℕ)) : String :=
  String.intercalate "\n"
    ["# Claude Runner Result", "",
     "- exit_code: " ++ toString w.exitCode,
     "- timed_out: " ++ (if w.timedOut then "true" else "false"),
     "- cwd: " ++ bytesToStr (renderPath cwd),
     "- command: claude -p <prompt>", "",
     "## stdout", "", bytesToStr (Framing.trimBytes w.stdout), "",
     "## stderr", "", bytesToStr (Framing.trimBytes w.stderr), ""]

/-- The runner's `ToolResult` (each server file declares its own). -/
structure RToolRes where
  content : List String
  isError : Bool
deriving DecidableEq

/-- `typeof argumentsObj.cwd === "string" ? argumentsObj.cwd : undefined`. -/
def rawCwdOf (args : JsVal) : Option (List ℕ) :=
  match jsField args "cwd" with
  | JsVal.str s => some (strBytes s)
  | _ => none

/-- `callTool` from `claude_runner/server.ts`, with the subprocess
abstracted by the `run` oracle and an explicit trace of the `(prompt, cwd)`
pairs spawned: the working directory is validated before anything else, for
every tool name, and a validation failure returns the error `ToolResult`
with an empty spawn trace. -/
def callTool (run : String → List (List ℕ) → Option ℚ → RunRes)
    (fsx : List ℕ → Bool) (fsr : List ℕ → Option String)
    (procCwd : List (List ℕ)) (roots : List (List (List ℕ)))
    (name : String) (args : JsVal) :
    RToolRes × List (String × List (List ℕ)) :=
  match validateCwd (rawCwdOf args) procCwd roots with
  | CwdValidation.error msg =>
    ({ content := [bytesToStr msg], isError := true }, [])
  | CwdValidation.ok cwd =>
    let timeoutSec := jsNumberOr (jsField args "timeout_sec") 180
    if name = "claude.one_shot" then
      let prompt := jsTrim (jsToString (jsOr (jsField args "prompt")
        (JsVal.str "")))
      if prompt = "" then
        ({ content := ["`prompt` is required."], isError := true }, [])
      else
        let files := match jsField args "context_files" with
          | JsVal.arr xs => xs.map jsToString
          | _ => []
        let maxChars := jsNumberOr (jsField args "max_file_chars") 6000
        let fullPrompt := appendFilesContext fsx fsr prompt cwd files maxChars
        let res := run fullPrompt cwd timeoutSec
        ({ content := [formatRun res cwd],
           isError := decide (res.exitCode ≠ 0) }, [(fullPrompt, cwd)])
    else if name = "claude.review_diff" then
      let diff := jsTrim (jsToString (jsOr (jsField args "diff")
        (JsVal.str "")))
      if diff = "" then
        ({ content := ["`diff` is required."], isError := true }, [])
      else
        let prompt := String.intercalate "\n"
          ["You are a strict code reviewer.", "Review the diff and output:",
           "1) Findings ordered by severity", "2) Open questions",
           "3) Regression risks", "", "Diff:", diff, ""]
        let res := run prompt cwd timeoutSec
        ({ content := [formatRun res cwd],
           isError := decide (res.exitCode ≠ 0) }, [(prompt, cwd)])
    else if name = "claude.generate_patch" then
      let task := jsTrim (jsToString (jsOr (jsField args "task")
        (JsVal.str "")))
      let context := jsTrim (jsToString (jsOr (jsField args "context")
        (JsVal.str "")))
      if task = "" ∨ context = "" then
        ({ content := ["`task` and `context` are required."],
           isError := true }, [])
      else
        let prompt := String.intercalate "\n"
          ["Generate a unified diff patch only.", "No markdown fences, no prose.",
           "", "Task:", task, "", "Context:", context, ""]
        let res := run prompt cwd timeoutSec
        ({ content := [formatRun res cwd],
           isError := decide (res.exitCode ≠ 0) }, [(prompt, cwd)])
    else ({ content := ["Unknown tool: " ++ name], isError := true }, [])

end ClaudeRunner

/-! ## Analysis of the brainstorm stages -/

namespace ModelRouter

/-- How a gateway result is stored in a stage map: failures keep a
`(failed)` tag, successes are trimmed. -/
def tagCall (c : CallResult) : String :=
  if c.code ≠ 0 then "(failed) " ++ c.text else jsTrim c.text

/-- The value the proposal stage stores for participant `m`. -/
def propVal (gw : GW) (req : String) (lims : CallLimits) (m : ModelSpec) :
    String :=
  tagCall (gw m (BPrompt.proposal req) lims)

/-- The error-log entries the proposal stage appends for participant `m`. -/
def propErr (gw : GW) (req : String) (lims : CallLimits) (m : ModelSpec) :
    List String :=
  if (gw m (BPrompt.proposal req) lims).code ≠ 0 then
    ["[proposal:" ++ m.id ++ "] code=" ++
      toString (gw m (BPrompt.proposal req) lims).code]
  else []

/-- The value a debate round stores for participant `m`. -/
def debVal (gw : GW) (req : String) (lims : CallLimits)
    (inputs : List (String × String)) (m : ModelSpec) : String :=
  tagCall (gw m (BPrompt.debate req (othersOf inputs m.id)) lims)

/-- The error-log entries round `i` appends for participant `m`. -/
def debErr (gw : GW) (req : String) (lims : CallLimits)
    (inputs : List (String × String)) (i : ℕ) (m : ModelSpec) : List String :=
  if (gw m (BPrompt.debate req (othersOf inputs m.id)) lims).code ≠ 0 then
    ["[debate-r" ++ toString i ++ ":" ++ m.id ++ "] code=" ++
      toString (gw m (BPrompt.debate req (othersOf inputs m.id)) lims).code]
  else []

/-- The common shape of one stage step: store the participant's tagged value
under its id and append its error entries. -/
def stepFold (val : ModelSpec → String) (errs : ModelSpec → List String)
    (acc : List (String × String) × List String) (m : ModelSpec) :
    List (String × String) × List String :=
  (objSet acc.1 m.id (val m), acc.2 ++ errs m)

theorem proposalStep_eq_stepFold (gw : GW) (req : String) (lims : CallLimits) :
    proposalStep gw req lims =
      stepFold (propVal gw req lims) (propErr gw req lims) := by
  funext acc m
  rw [proposalStep, stepFold, propVal, propErr, tagCall]
  by_cases h : (gw m (BPrompt.proposal req) lims).code ≠ 0 <;> simp [h]

theorem debateStep_eq_stepFold (gw : GW) (req : String) (lims : CallLimits)
    (inputs : List (String × String)) (i : ℕ) :
    debateStep gw req lims inputs i =
      stepFold (debVal gw req lims inputs) (debErr gw req lims inputs i) := by
  funext acc m
  rw [debateStep, stepFold, debVal, debErr, tagCall]
  by_cases h :
      (gw m (BPrompt.debate req (othersOf inputs m.id)) lims).code ≠ 0 <;>
    simp [h]

theorem stepFold_lookup_absent (val : ModelSpec → String)
    (errs : ModelSpec → List String) (ps : List ModelSpec) (k : String)
    (h : ∀ p ∈ ps, p.id ≠ k) :
    ∀ init, objGet (ps.foldl (stepFold val errs) init).1 k = objGet init.1 k := by
  induction ps with
  | nil => intro init; rfl
  | cons m ms ih =>
    intro init
    rw [List.foldl_cons,
      ih (fun p hp => h p (List.mem_cons_of_mem m hp))]
    exact objGet_objSet_ne _ _ _ _ (h m (List.mem_cons_self m ms))

theorem stepFold_lookup (val : ModelSpec → String)
    (errs : ModelSpec → List String) (ps : List ModelSpec) (B : ModelSpec)
    (hnd : (ps.map (fun m => m.id)).Nodup) (hB : B ∈ ps) :
    ∀ init, objGet (ps.foldl (stepFold val errs) init).1 B.id = some (val B) := by
  induction ps with
  | nil => exact absurd hB (List.not_mem_nil B)
  | cons m ms ih =>
    intro init
    rw [List.map_cons, List.nodup_cons] at hnd
    rcases List.mem_cons.mp hB with hBm | hBms
    · subst hBm
      rw [List.foldl_cons,
        stepFold_lookup_absent val errs ms B.id
          (fun p hp hpid => hnd.1 (hpid ▸ List.mem_map_of_mem (fun m => m.id) hp))]
      exact objGet_objSet_self _ _ _
    · exact ih hnd.2 hBms _

theorem stepFold_isSome_mono (val : ModelSpec → String)
    (errs : ModelSpec → List String) (ps : List ModelSpec) (k : String) :
    ∀ init, (objGet init.1 k).isSome →
      (objGet (ps.foldl (stepFold val errs) init).1 k).isSome := by
  induction ps with
  | nil => intro init h; exact h
  | cons m ms ih =>
    intro init h
    rw [List.foldl_cons]
    exact ih _ (objGet_objSet_isSome _ _ _ _ h)

theorem stepFold_isSome (val : ModelSpec → String)
    (errs : ModelSpec → List String) (ps : List ModelSpec) (B : ModelSpec)
    (hB : B ∈ ps) :
    ∀ init, (objGet (ps.foldl (stepFold val errs) init).1 B.id).isSome := by
  induction ps with
  | nil => exact absurd hB (List.not_mem_nil B)
  | cons m ms ih =>
    intro init
    rcases List.mem_cons.mp hB with hBm | hBms
    · subst hBm
      rw [List.foldl_cons]
      exact stepFold_isSome_mono val errs ms B.id _
        (by simp [stepFold, objGet_objSet_self])
    · exact ih hBms _

theorem stepFold_errors (val : ModelSpec → String)
    (errs : ModelSpec → List String) (ps : List ModelSpec) :
    ∀ init, (ps.foldl (stepFold val errs) init).2 =
      init.2 ++ (ps.map errs).flatten := by
  induction ps with
  | nil => intro init; simp
  | cons m ms ih =>
    intro init
    rw [List.foldl_cons, ih]
    simp [stepFold]

theorem stepFold_keys (val : ModelSpec → String)
    (errs : ModelSpec → List String) (ps : List ModelSpec) (k : String) :
    ∀ init, (objGet (ps.foldl (stepFold val errs) init).1 k).isSome →
      k ∈ ps.map (fun m => m.id) ∨ (objGet init.1 k).isSome := by
  induction ps with
  | nil => intro init h; exact Or.inr h
  | cons m ms ih =>
    intro init h
    rw [List.foldl_cons] at h
    rcases ih _ h with hk | hk
    · exact Or.inl (List.mem_cons_of_mem _ hk)
    · by_cases hkm : m.id = k
      · exact Or.inl (List.mem_cons.mpr (Or.inl hkm.symm))
      · right
        simp only [stepFold] at hk
        rwa [objGet_objSet_ne _ _ _ _ hkm] at hk

/-- The input pool of debate round `j + 1` (0-indexed `j`): the proposal map
for the first round, the previous round's responses afterwards. -/
def poolAt (proposals : List (String × String)) (ds : List DebateRound) :
    ℕ → List (String × String)
  | 0 => proposals
  | j + 1 => ((ds.get? j).getD ⟨0, []⟩).responses

theorem runDebates_length (gw : GW) (req : String) (lims : CallLimits)
    (ps : List ModelSpec) :
    ∀ n i inputs, (runDebates gw req lims ps n i inputs).1.length = n := by
  intro n
  induction n with
  | zero => intro i inputs; rfl
  | succ n ih =>
    intro i inputs
    rw [runDebates]
    simp [ih]

theorem runDebates_get? (gw : GW) (req : String) (lims : CallLimits)
    (ps : List ModelSpec) :
    ∀ n i inputs j, j < n →
      (runDebates gw req lims ps n i inputs).1.get? j =
        some ⟨i + j, (debateRoundRun gw req lims ps (i + j)
          (poolAt inputs (runDebates gw req lims ps n i inputs).1 j)).1⟩ := by
  intro n
  induction n with
  | zero => intro i inputs j hj; omega
  | succ n ih =>
    intro i inputs j hj
    rw [runDebates]
    cases j with
    | zero => simp [poolAt]
    | succ k =>
      have hk : k < n := by omega
      have := ih (i + 1) (debateRoundRun gw req lims ps i inputs).1 k hk
      simp only [List.get?_cons_succ]
      rw [this]
      have hpool : poolAt (debateRoundRun gw req lims ps i inputs).1
          (runDebates gw req lims ps n (i + 1)
            (debateRoundRun gw req lims ps i inputs).1).1 k =
          poolAt inputs
            ((⟨i, (debateRoundRun gw req lims ps i inputs).1⟩ : DebateRound) ::
              (runDebates gw req lims ps n (i + 1)
                (debateRoundRun gw req lims ps i inputs).1).1) (k + 1) := by
        cases k with
        | zero => simp [poolAt]
        | succ k' => simp [poolAt]
      rw [hpool]
      have harith : i + 1 + k = i + (k + 1) := by omega
      rw [harith]

theorem runDebates_mem (gw : GW) (req : String) (lims : CallLimits)
    (ps : List ModelSpec) :
    ∀ n i inputs d, d ∈ (runDebates gw req lims ps n i inputs).1 →
      ∃ j pool, d = ⟨j, (debateRoundRun gw req lims ps j pool).1⟩ := by
  intro n
  induction n with
  | zero => intro i inputs d hd; exact absurd hd (List.not_mem_nil d)
  | succ n ih =>
    intro i inputs d hd
    rw [runDebates] at hd
    rcases List.mem_cons.mp hd with hd | hd
    · exact ⟨i, inputs, hd⟩
    · exact ih _ _ d hd

theorem runDebates_errors_mem (gw : GW) (req : String) (lims : CallLimits)
    (ps : List ModelSpec) :
    ∀ n i inputs e, e ∈ (runDebates gw req lims ps n i inputs).2.2 →
      ∃ p ∈ ps, ∃ j : ℕ, ∃ s,
        e = "[debate-r" ++ toString j ++ ":" ++ p.id ++ s := by
  intro n
  induction n with
  | zero => intro i inputs e he; exact absurd he (List.not_mem_nil e)
  | succ n ih =>
    intro i inputs e he
    rw [runDebates] at he
    simp only [List.mem_append] at he
    rcases he with he | he
    · rw [debateRoundRun, debateStep_eq_stepFold,
        stepFold_errors _ _ ps ([], [])] at he
      simp only [List.nil_append, List.mem_flatten, List.mem_map] at he
      obtain ⟨l, ⟨p, hp, hl⟩, hel⟩ := he
      subst hl
      rw [debErr] at hel
      by_cases hc :
          (gw p (BPrompt.debate req (othersOf inputs p.id)) lims).code ≠ 0
      · rw [if_pos hc] at hel
        simp only [List.mem_singleton] at hel
        exact ⟨p, hp, i, "] code=" ++
          toString (gw p (BPrompt.debate req (othersOf inputs p.id)) lims).code,
          by rw [hel]; simp [String.append_assoc]⟩
      · rw [if_neg hc] at hel
        exact absurd hel (List.not_mem_nil e)
    · exact ih _ _ e he

/-- The proposal-stage output the pipeline threads through. -/
def pipelineProp (gw : GW) (req : String) (lims : CallLimits)
    (ps : List ModelSpec) : List (String × String) × List String :=
  proposalStage gw req lims ps

/-- The debate-loop output the pipeline threads through. -/
def pipelineDebs (gw : GW) (req : String) (lims : CallLimits)
    (ps : List ModelSpec) (droundsVal : Option ℚ) :
    List DebateRound × List (String × String) × List String :=
  runDebates gw req lims ps (executedRounds droundsVal) 1
    (proposalStage gw req lims ps).1

/-- The participant the synthesis stage resolves to. -/
def synthModelOf (ps : List ModelSpec) (synthBy : String) : ModelSpec :=
  (ps.find? (fun m => m.id = synthBy)).getD ps.headI

/-- The synthesis gateway call of the pipeline. -/
def pipelineSynth (gw : GW) (req : String) (lims : CallLimits)
    (ps : List ModelSpec) (droundsVal : Option ℚ) (synthBy : String) :
    CallResult :=
  gw (synthModelOf ps synthBy)
    (BPrompt.synthesis req (pipelineProp gw req lims ps).1
      (pipelineDebs gw req lims ps droundsVal).1) lims

/-- The synthesis-stage error entries. -/
def pipelineSerrs (gw : GW) (req : String) (lims : CallLimits)
    (ps : List ModelSpec) (droundsVal : Option ℚ) (synthBy : String) :
    List String :=
  if (pipelineSynth gw req lims ps droundsVal synthBy).code ≠ 0 then
    ["[synthesis:" ++ (synthModelOf ps synthBy).id ++ "] code=" ++
      toString (pipelineSynth gw req lims ps droundsVal synthBy).code]
  else []

theorem brainstormPipeline_fields (gw : GW) (req : String) (lims : CallLimits)
    (ps : List ModelSpec) (droundsVal : Option ℚ) (synthBy : String) :
    (brainstormPipeline gw req lims ps droundsVal synthBy).proposals =
        (pipelineProp gw req lims ps).1 ∧
    (brainstormPipeline gw req lims ps droundsVal synthBy).debates =
        (pipelineDebs gw req lims ps droundsVal).1 ∧
    (brainstormPipeline gw req lims ps droundsVal synthBy).errors =
        (pipelineProp gw req lims ps).2 ++
          (pipelineDebs gw req lims ps droundsVal).2.2 ++
          pipelineSerrs gw req lims ps droundsVal synthBy ∧
    (brainstormPipeline gw req lims ps droundsVal synthBy).participants =
        ps.map (fun m => m.id) :=
  ⟨rfl, rfl, rfl, rfl⟩

/-- A participant's own entry is always absent from the `others` map it is
shown. -/
theorem othersOf_self (inputs : List (String × String)) (id : String) :
    objGet (othersOf inputs id) id = none := by
  induction inputs with
  | nil => rfl
  | cons kv rest ih =>
    obtain ⟨k, v⟩ := kv
    rw [othersOf, List.filter_cons]
    by_cases h : k = id
    · simp only [h, ne_eq, not_true_eq_false, decide_False, Bool.false_eq_true,
        if_false]
      exact ih
    · simp only [ne_eq, h, not_false_eq_true, decide_True, if_true, objGet,
        if_neg h]
      exact ih

/-- Number of executed debate rounds visible in a brainstorm outcome. -/
def debatesCount (o : BrainstormOutcome) : ℕ :=
  match o with
  | BrainstormOutcome.report r => r.debates.length
  | _ => 0

/-- The participants `runBrainstorm` keeps: the entries `toModelSpec`
accepts, with the positional fallback id. -/
def keptParticipants (args : JsVal) : List ModelSpec :=
  ((match jsField args "participants" with
    | JsVal.arr xs => xs
    | _ => []) : List JsVal).enum.filterMap
    (fun p : ℕ × JsVal => toModelSpec p.2 ("model_" ++ toString (p.1 + 1)))

end ModelRouter

/-! ## Concrete fixtures used by the claim theorems and witnesses -/

/-- A gateway whose every call succeeds. -/
def oneOkGW : ModelRouter.GW := fun _ _ _ => ⟨0, "ok"⟩

/-- A gateway that fails participant `B`'s proposal call with code 7. -/
def failBGW : ModelRouter.GW := fun m p _ =>
  match p with
  | ModelRouter.BPrompt.proposal _ => if m.id = "B" then ⟨7, "boom"⟩ else ⟨0, "ok"⟩
  | _ => ⟨0, "ok"⟩

def specA : ModelRouter.ModelSpec := ⟨"A", "openai", "m", "", "k", ""⟩

def specB : ModelRouter.ModelSpec := ⟨"B", "anthropic", "m", "", "k", ""⟩

def specC : ModelRouter.ModelSpec := ⟨"C", "gemini", "m", "", "k", ""⟩

def limsDefault : ModelRouter.CallLimits :=
  ⟨some 180, some temperatureDefault, some 2048⟩

/-- One valid participant entry as JSON. -/
def partAJson : JsVal :=
  JsVal.obj [("id", JsVal.str "A"), ("provider", JsVal.str "openai"),
    ("model", JsVal.str "m")]

/-- Brainstorm arguments with an explicit `debate_rounds` value. -/
def c1Args (dr : JsVal) : JsVal :=
  JsVal.obj [("requirement", JsVal.str "req"),
    ("participants", JsVal.arr [partAJson]), ("debate_rounds", dr)]

/-- Brainstorm arguments without `debate_rounds`. -/
def c1ArgsNoRounds : JsVal :=
  JsVal.obj [("requirement", JsVal.str "req"),
    ("participants", JsVal.arr [partAJson])]

/-- An execution oracle that records nothing of interest. -/
def runNever : String → List (List ℕ) → Option ℚ → ClaudeRunner.RunRes :=
  fun _ _ _ => ⟨0, [], [], false⟩

def fsxNone : List ℕ → Bool := fun _ => false

def fsrNone : List ℕ → Option String := fun _ => none

/-- Runner-tool arguments whose `cwd` lies outside the allow-list. -/
def c7Args : JsVal :=
  JsVal.obj [("prompt", JsVal.str "hi"), ("cwd", JsVal.str "/etc")]

/-- A one-root allow-list at `/workspace`. -/
def rootsW : List (List (List ℕ)) :=
  [ClaudeRunner.resolvePath [] (ClaudeRunner.strBytes "/workspace")]

/-- The message `validateCwd` produces for `c7Args` against `rootsW`. -/
def c7Msg : List ℕ :=
  ClaudeRunner.strBytes "cwd " ++ [39] ++
    ClaudeRunner.renderPath (ClaudeRunner.resolvePath []
      (ClaudeRunner.strBytes "/etc")) ++ [39] ++
    ClaudeRunner.strBytes " is outside allowed roots: " ++
    ClaudeRunner.joinWith (ClaudeRunner.strBytes ", ")
      (rootsW.map ClaudeRunner.renderPath)

/-- An HTTP oracle (never consulted by the claims that use it). -/
def httpAny : ModelRouter.HttpRequest → ModelRouter.HttpResponse :=
  fun _ => ⟨200, JsVal.obj [], ""⟩

/-- Brainstorm arguments with one junk participant entry, one valid entry
without an `id`, and one entry missing `model`. -/
def c9Args : JsVal :=
  JsVal.obj [("requirement", JsVal.str "req"),
    ("participants", JsVal.arr
      [JsVal.str "junk",
       JsVal.obj [("provider", JsVal.str "openai"), ("model", JsVal.str "m")],
       JsVal.obj [("provider", JsVal.str "openai")]])]

/-- `model.one_shot` arguments naming an unknown provider. -/
def c10Args : JsVal :=
  JsVal.obj [("model", JsVal.obj [("provider", JsVal.str "GROK"),
    ("model", JsVal.str "m")]), ("prompt", JsVal.str "hello")]

/-- The spec `toModelSpec` builds from `c10Args.model`: provider lowercased
to `grok`, fallback id `model_1`. -/
def c10Spec : ModelRouter.ModelSpec := ⟨"model_1", "grok", "m", "", "", ""⟩

/-! ## Claim theorems -/

/-- C1: the spec claims the executed debate-round count is the caller's
`debate_rounds` clamped to `[0, 5]`, with inputs `-1, 0, 5, 7` giving
`0, 0, 5, 5` and `0` skipping the debate stage.  The code computes
`Number(argumentsObj.debate_rounds || 1)`, and JavaScript's `||` sends the
falsy `0` to the default `1`: a request with `debate_rounds = 0` executes
one round, although the tool's own `inputSchema` admits `0`
(`minimum: 0`).  The other inputs behave as claimed. -/
theorem debate_rounds_zero_executes_one_round :
    ModelRouter.debatesCount
        (ModelRouter.runBrainstormCore oneOkGW (c1Args (JsVal.num 0))) = 1 ∧
    ModelRouter.debatesCount
        (ModelRouter.runBrainstormCore oneOkGW (c1Args (JsVal.num (-1)))) = 0 ∧
    ModelRouter.debatesCount
        (ModelRouter.runBrainstormCore oneOkGW (c1Args (JsVal.num 5))) = 5 ∧
    ModelRouter.debatesCount
        (ModelRouter.runBrainstormCore oneOkGW (c1Args (JsVal.num 7))) = 5 ∧
    ModelRouter.debatesCount
        (ModelRouter.runBrainstormCore oneOkGW c1ArgsNoRounds) = 1 := by
  decide

/-- C2 (counterexample): a zero-byte payload does not round-trip — its
frame declares `Content-Length: 0`, which `readMessageSync` treats as
"no message" (`if (!len) return null`), so decoding yields `none`, not the
empty payload. -/
theorem framing_empty_payload_no_message :
    Framing.readMessageBytes (Framing.writeMessageBytes []) = none ∧
    (none : Option (List ℕ)) ≠ some [] := by
  constructor
  · decide
  · decide

/-- C2 (amended): every payload of size 1..N round-trips through the
Content-Length framing exactly, and whenever fewer body bytes are available
than the declared Content-Length, decoding yields `none` (no partial
parse). -/
theorem framing_roundtrip_and_truncation (body : List ℕ) (n : ℕ) :
    (body ≠ [] →
      Framing.readMessageBytes (Framing.writeMessageBytes body) = some body) ∧
    (body.length < n →
      Framing.readMessageBytes (Framing.headerBytes n ++ body) = none) := by
  constructor
  · exact Framing.readMessageBytes_writeMessageBytes body
  · intro h
    rw [Framing.readMessageBytes_frame n body]
    rw [if_neg (by omega : ¬n = 0), if_pos h]

/-- Witness for C2's theorem at a concrete 2-byte payload and a truncated
frame declaring 5 bytes. -/
theorem framing_roundtrip_and_truncation_witness :
    Framing.readMessageBytes (Framing.writeMessageBytes [104, 105]) =
        some [104, 105] ∧
    Framing.readMessageBytes (Framing.headerBytes 5 ++ [104, 105]) = none :=
  ⟨(framing_roundtrip_and_truncation [104, 105] 5).1 (by decide),
   (framing_roundtrip_and_truncation [104, 105] 5).2 (by decide)⟩

/-- C3 (counterexample): `/workspace/..foo` resolves to a strict descendant
of `/workspace`, yet `isUnder` rejects it — `path.relative` yields the
single segment `..foo`, and the check `!rel.startsWith("..")` reads its
first two characters as an escape above the root.  So "accepted iff it
equals the root or is a strict descendant" fails in the accept
direction. -/
theorem sandbox_dotdot_named_descendant_rejected :
    ClaudeRunner.strictDescendant
        (ClaudeRunner.resolvePath [] (ClaudeRunner.strBytes "/workspace"))
        (ClaudeRunner.resolvePath [] (ClaudeRunner.strBytes "/workspace/..foo")) ∧
    ClaudeRunner.isUnder
        (ClaudeRunner.resolvePath [] (ClaudeRunner.strBytes "/workspace"))
        (ClaudeRunner.resolvePath [] (ClaudeRunner.strBytes "/workspace/..foo")) =
      false := by
  constructor
  · constructor
    · decide
    · decide
  · decide

/-- C3 (amended): after resolution (which eliminates `..` segments), a
candidate is accepted iff it equals the root or is a strict descendant
whose first segment below the root does not itself begin with the two
characters `..`; the spec's three concrete examples behave exactly as
stated (`/workspace/sub` allowed, `/workspace-other` rejected with no
prefix-string false positive, `/workspace/../etc` resolves to `/etc` and is
rejected). -/
theorem sandbox_containment_characterization :
    (∀ r t : List (List ℕ), (∀ s ∈ t, s ≠ [] ∧ 47 ∉ s) →
      (ClaudeRunner.isUnder r t = true ↔
        (r = t ∨ (ClaudeRunner.strictDescendant r t ∧
          ∀ s₀ ∈ (t.drop r.length).head?,
            ClaudeRunner.bytesStartsWith [46, 46] s₀ = false)))) ∧
    ClaudeRunner.isUnder
        (ClaudeRunner.resolvePath [] (ClaudeRunner.strBytes "/workspace"))
        (ClaudeRunner.resolvePath [] (ClaudeRunner.strBytes "/workspace/sub")) =
      true ∧
    ClaudeRunner.isUnder
        (ClaudeRunner.resolvePath [] (ClaudeRunner.strBytes "/workspace"))
        (ClaudeRunner.resolvePath [] (ClaudeRunner.strBytes "/workspace-other")) =
      false ∧
    ClaudeRunner.resolvePath [] (ClaudeRunner.strBytes "/workspace/../etc") =
      [ClaudeRunner.strBytes "etc"] ∧
    ClaudeRunner.isUnder
        (ClaudeRunner.resolvePath [] (ClaudeRunner.strBytes "/workspace"))
        (ClaudeRunner.resolvePath [] (ClaudeRunner.strBytes "/workspace/../etc")) =
      false := by
  refine ⟨fun r t ht => ClaudeRunner.isUnder_iff r t ht, ?_, ?_, ?_, ?_⟩
  · decide
  · decide
  · decide
  · decide

/-- Witness for C3's amended characterization at root `/workspace` and
candidate `/workspace/sub`. -/
theorem sandbox_containment_characterization_witness :
    ClaudeRunner.isUnder
        (ClaudeRunner.resolvePath [] (ClaudeRunner.strBytes "/workspace"))
        (ClaudeRunner.resolvePath [] (ClaudeRunner.strBytes "/workspace/sub")) =
        true ↔
      (ClaudeRunner.resolvePath [] (ClaudeRunner.strBytes "/workspace") =
          ClaudeRunner.resolvePath [] (ClaudeRunner.strBytes "/workspace/sub") ∨
        (ClaudeRunner.strictDescendant
            (ClaudeRunner.resolvePath [] (ClaudeRunner.strBytes "/workspace"))
            (ClaudeRunner.resolvePath []
              (ClaudeRunner.strBytes "/workspace/sub")) ∧
          ∀ s₀ ∈ ((ClaudeRunner.resolvePath []
              (ClaudeRunner.strBytes "/workspace/sub")).drop
                (ClaudeRunner.resolvePath []
                  (ClaudeRunner.strBytes "/workspace")).length).head?,
            ClaudeRunner.bytesStartsWith [46, 46] s₀ = false)) :=
  sandbox_containment_characterization.1
    (ClaudeRunner.resolvePath [] (ClaudeRunner.strBytes "/workspace"))
    (ClaudeRunner.resolvePath [] (ClaudeRunner.strBytes "/workspace/sub"))
    (by decide)

open ModelRouter in
/-- C4: when participant `B`'s gateway call fails at the proposal stage,
the proposal map still holds a `(failed)`-tagged entry for `B`'s id, the
error log gains an entry naming the proposal stage and that id, every
participant's entry in every stage still completes, and the returned
`ToolResult.isError` is true — in general it is true iff the accumulated
error log is non-empty. -/
theorem proposal_failure_isolation (gw : GW) (req : String)
    (lims : CallLimits) (ps : List ModelSpec) (droundsVal : Option ℚ)
    (synthBy : String) (B : ModelSpec)
    (hnd : (ps.map (fun m => m.id)).Nodup) (hB : B ∈ ps)
    (hfail : (gw B (BPrompt.proposal req) lims).code ≠ 0) :
    objGet (brainstormPipeline gw req lims ps droundsVal synthBy).proposals
        B.id =
      some ("(failed) " ++ (gw B (BPrompt.proposal req) lims).text) ∧
    ("[proposal:" ++ B.id ++ "] code=" ++
        toString (gw B (BPrompt.proposal req) lims).code) ∈
      (brainstormPipeline gw req lims ps droundsVal synthBy).errors ∧
    (∀ p ∈ ps,
      (objGet (brainstormPipeline gw req lims ps droundsVal synthBy).proposals
          p.id).isSome ∧
      ∀ d ∈ (brainstormPipeline gw req lims ps droundsVal synthBy).debates,
        (objGet d.responses p.id).isSome) ∧
    (brainstormToolResult (BrainstormOutcome.report
        (brainstormPipeline gw req lims ps droundsVal synthBy))).isError =
      true ∧
    (∀ rep : BrainstormReport,
      (brainstormToolResult (BrainstormOutcome.report rep)).isError =
        decide (rep.errors ≠ [])) := by
  obtain ⟨hP, hD, hE, _⟩ :=
    brainstormPipeline_fields gw req lims ps droundsVal synthBy
  have hlabel : ("[proposal:" ++ B.id ++ "] code=" ++
      toString (gw B (BPrompt.proposal req) lims).code) ∈
      (pipelineProp gw req lims ps).2 := by
    rw [pipelineProp, proposalStage, proposalStep_eq_stepFold,
      stepFold_errors]
    simp only [List.nil_append, List.mem_flatten, List.mem_map]
    refine ⟨propErr gw req lims B, ⟨B, hB, rfl⟩, ?_⟩
    rw [propErr, if_pos hfail]
    exact List.mem_singleton.mpr rfl
  have hmemE : ("[proposal:" ++ B.id ++ "] code=" ++
      toString (gw B (BPrompt.proposal req) lims).code) ∈
      (brainstormPipeline gw req lims ps droundsVal synthBy).errors := by
    rw [hE]
    exact List.mem_append_left _ (List.mem_append_left _ hlabel)
  refine ⟨?_, hmemE, ?_, ?_, fun rep => rfl⟩
  · rw [hP, pipelineProp, proposalStage, proposalStep_eq_stepFold,
      stepFold_lookup _ _ ps B hnd hB ([], []), propVal, tagCall, if_pos hfail]
  · intro p hp
    constructor
    · rw [hP, pipelineProp, proposalStage, proposalStep_eq_stepFold]
      exact stepFold_isSome _ _ ps p hp ([], [])
    · intro d hd
      rw [hD, pipelineDebs] at hd
      obtain ⟨j, pool, hdj⟩ := runDebates_mem gw req lims ps _ 1 _ d hd
      subst hdj
      show (objGet (debateRoundRun gw req lims ps j pool).1 p.id).isSome
      rw [debateRoundRun, debateStep_eq_stepFold]
      exact stepFold_isSome _ _ ps p hp ([], [])
  · have hne : (brainstormPipeline gw req lims ps droundsVal synthBy).errors ≠
        [] := List.ne_nil_of_mem hmemE
    simp [brainstormToolResult, hne]

open ModelRouter in
/-- Witness for C4: three participants `A`, `B`, `C` with `B`'s proposal
call failing (code 7). -/
theorem proposal_failure_isolation_witness :
    objGet (brainstormPipeline failBGW "req" limsDefault [specA, specB, specC]
        (some 1) "A").proposals specB.id =
      some ("(failed) " ++
        (failBGW specB (BPrompt.proposal "req") limsDefault).text) ∧
    ("[proposal:" ++ specB.id ++ "] code=" ++
        toString (failBGW specB (BPrompt.proposal "req") limsDefault).code) ∈
      (brainstormPipeline failBGW "req" limsDefault [specA, specB, specC]
        (some 1) "A").errors ∧
    (∀ p ∈ [specA, specB, specC],
      (objGet (brainstormPipeline failBGW "req" limsDefault
          [specA, specB, specC] (some 1) "A").proposals p.id).isSome ∧
      ∀ d ∈ (brainstormPipeline failBGW "req" limsDefault
          [specA, specB, specC] (some 1) "A").debates,
        (objGet d.responses p.id).isSome) ∧
    (brainstormToolResult (BrainstormOutcome.report
        (brainstormPipeline failBGW "req" limsDefault [specA, specB, specC]
          (some 1) "A"))).isError = true ∧
    (∀ rep : BrainstormReport,
      (brainstormToolResult (BrainstormOutcome.report rep)).isError =
        decide (rep.errors ≠ [])) :=
  proposal_failure_isolation failBGW "req" limsDefault [specA, specB, specC]
    (some 1) "A" specB (by decide) (by decide) (by decide)

open ModelRouter in
/-- C5: round `j + 1`'s response map (0-indexed `j`) is produced from the
input pool `poolAt proposals debates j` — the proposal map for the first
round and the previous round's responses afterwards — and every
participant's entry comes from a critique call whose `others` input is that
pool with the participant's own entry removed (own id never present). -/
theorem debate_own_entry_removed_and_chained (gw : GW) (req : String)
    (lims : CallLimits) (ps : List ModelSpec) (droundsVal : Option ℚ)
    (synthBy : String) (hnd : (ps.map (fun m => m.id)).Nodup) :
    (brainstormPipeline gw req lims ps droundsVal synthBy).debates.length =
        executedRounds droundsVal ∧
    (∀ j, j <
        (brainstormPipeline gw req lims ps droundsVal synthBy).debates.length →
      (brainstormPipeline gw req lims ps droundsVal synthBy).debates.get? j =
        some ⟨j + 1, (debateRoundRun gw req lims ps (j + 1)
          (poolAt
            (brainstormPipeline gw req lims ps droundsVal synthBy).proposals
            (brainstormPipeline gw req lims ps droundsVal synthBy).debates
            j)).1⟩) ∧
    (∀ j, j <
        (brainstormPipeline gw req lims ps droundsVal synthBy).debates.length →
      ∀ p ∈ ps,
        objGet (((brainstormPipeline gw req lims ps droundsVal
            synthBy).debates.get? j).getD ⟨0, []⟩).responses p.id =
          some (tagCall (gw p (BPrompt.debate req (othersOf
            (poolAt
              (brainstormPipeline gw req lims ps droundsVal synthBy).proposals
              (brainstormPipeline gw req lims ps droundsVal synthBy).debates
              j)
            p.id)) lims))) ∧
    (∀ (inputs : List (String × String)) (id : String),
      objGet (othersOf inputs id) id = none) := by
  obtain ⟨hP, hD, _, _⟩ :=
    brainstormPipeline_fields gw req lims ps droundsVal synthBy
  have hlen :
      (brainstormPipeline gw req lims ps droundsVal synthBy).debates.length =
        executedRounds droundsVal := by
    rw [hD, pipelineDebs, runDebates_length]
  have hget : ∀ j, j <
      (brainstormPipeline gw req lims ps droundsVal synthBy).debates.length →
      (brainstormPipeline gw req lims ps droundsVal synthBy).debates.get? j =
        some ⟨j + 1, (debateRoundRun gw req lims ps (j + 1)
          (poolAt
            (brainstormPipeline gw req lims ps droundsVal synthBy).proposals
            (brainstormPipeline gw req lims ps droundsVal synthBy).debates
            j)).1⟩ := by
    intro j hj
    rw [hlen] at hj
    rw [hD, hP, pipelineDebs, pipelineProp]
    have := runDebates_get? gw req lims ps (executedRounds droundsVal) 1
      (proposalStage gw req lims ps).1 j hj
    rw [Nat.add_comm 1 j] at this
    exact this
  refine ⟨hlen, hget, ?_, othersOf_self⟩
  intro j hj p hp
  rw [hget j hj]
  show objGet (debateRoundRun gw req lims ps (j + 1)
      (poolAt
        (brainstormPipeline gw req lims ps droundsVal synthBy).proposals
        (brainstormPipeline gw req lims ps droundsVal synthBy).debates
        j)).1 p.id = _
  rw [debateRoundRun, debateStep_eq_stepFold,
    stepFold_lookup _ _ ps p hnd hp ([], []), debVal]

open ModelRouter in
/-- Witness for C5: three participants and two debate rounds under the
always-succeeding gateway. -/
theorem debate_own_entry_removed_and_chained_witness :
    (brainstormPipeline oneOkGW "req" limsDefault [specA, specB, specC]
        (some 2) "A").debates.length = executedRounds (some 2) ∧
    (∀ j, j < (brainstormPipeline oneOkGW "req" limsDefault
        [specA, specB, specC] (some 2) "A").debates.length →
      (brainstormPipeline oneOkGW "req" limsDefault [specA, specB, specC]
          (some 2) "A").debates.get? j =
        some ⟨j + 1, (debateRoundRun oneOkGW "req" limsDefault
          [specA, specB, specC] (j + 1)
          (poolAt
            (brainstormPipeline oneOkGW "req" limsDefault
              [specA, specB, specC] (some 2) "A").proposals
            (brainstormPipeline oneOkGW "req" limsDefault
              [specA, specB, specC] (some 2) "A").debates
            j)).1⟩) ∧
    (∀ j, j < (brainstormPipeline oneOkGW "req" limsDefault
        [specA, specB, specC] (some 2) "A").debates.length →
      ∀ p ∈ [specA, specB, specC],
        objGet (((brainstormPipeline oneOkGW "req" limsDefault
            [specA, specB, specC] (some 2) "A").debates.get? j).getD
            ⟨0, []⟩).responses p.id =
          some (tagCall (oneOkGW p (BPrompt.debate "req" (othersOf
            (poolAt
              (brainstormPipeline oneOkGW "req" limsDefault
                [specA, specB, specC] (some 2) "A").proposals
              (brainstormPipeline oneOkGW "req" limsDefault
                [specA, specB, specC] (some 2) "A").debates
              j)
            p.id)) limsDefault))) ∧
    (∀ (inputs : List (String × String)) (id : String),
      objGet (othersOf inputs id) id = none) :=
  debate_own_entry_removed_and_chained oneOkGW "req" limsDefault
    [specA, specB, specC] (some 2) "A" (by decide)

open ModelRouter in
/-- C6: the gateway fails with code 2 and issues no HTTP request (empty
request trace) whenever a provider precondition is unmet: `openai` with an
empty `api_key`, `gemini` with neither `api_key` nor `api_url`, and
`custom` with no `api_url`. -/
theorem gateway_missing_credentials_code2
    (http : HttpRequest → HttpResponse) (spec : ModelSpec) (prompt : String)
    (t te mt : Option ℚ) :
    (spec.provider = "openai" → spec.api_key = "" →
      callModel http spec prompt t te mt =
        (⟨2, "[" ++ spec.id ++ "] missing api_key for openai."⟩, [])) ∧
    (spec.provider = "gemini" → spec.api_key = "" → spec.api_url = "" →
      callModel http spec prompt t te mt =
        (⟨2, "[" ++ spec.id ++ "] missing api_key for gemini."⟩, [])) ∧
    (spec.provider = "custom" → spec.api_url = "" →
      callModel http spec prompt t te mt =
        (⟨2, "[" ++ spec.id ++ "] missing api_url for custom provider."⟩,
          [])) := by
  refine ⟨fun hprov hkey => ?_, fun hprov hkey hurl => ?_,
    fun hprov hurl => ?_⟩
  · simp [callModel, hprov, hkey]
  · simp [callModel, hprov, hkey, hurl]
  · simp [callModel, hprov, hurl]

open ModelRouter in
/-- Witness for C6 at three concrete specs, one per precondition. -/
theorem gateway_missing_credentials_code2_witness :
    callModel httpAny ⟨"o", "openai", "m", "", "", ""⟩ "p" none none none =
      (⟨2, "[" ++ "o" ++ "] missing api_key for openai."⟩, []) ∧
    callModel httpAny ⟨"g", "gemini", "m", "", "", ""⟩ "p" none none none =
      (⟨2, "[" ++ "g" ++ "] missing api_key for gemini."⟩, []) ∧
    callModel httpAny ⟨"c", "custom", "m", "", "k", ""⟩ "p" none none none =
      (⟨2, "[" ++ "c" ++ "] missing api_url for custom provider."⟩, []) :=
  ⟨(gateway_missing_credentials_code2 httpAny ⟨"o", "openai", "m", "", "", ""⟩
      "p" none none none).1 rfl rfl,
   (gateway_missing_credentials_code2 httpAny ⟨"g", "gemini", "m", "", "", ""⟩
      "p" none none none).2.1 rfl rfl rfl,
   (gateway_missing_credentials_code2 httpAny ⟨"c", "custom", "m", "", "k", ""⟩
      "p" none none none).2.2 rfl rfl⟩

open ClaudeRunner in
/-- C7: whatever the tool name and the oracles, when the resolved working
directory fails the allow-list check, `callTool` returns the error
`ToolResult` immediately and the spawn trace is empty — no subprocess is
ever started. -/
theorem sandbox_violation_no_spawn
    (run : String → List (List ℕ) → Option ℚ → RunRes)
    (fsx : List ℕ → Bool) (fsr : List ℕ → Option String)
    (procCwd : List (List ℕ)) (roots : List (List (List ℕ)))
    (name : String) (args : JsVal) (msg : List ℕ)
    (hval : validateCwd (rawCwdOf args) procCwd roots =
      CwdValidation.error msg) :
    ClaudeRunner.callTool run fsx fsr procCwd roots name args =
      ({ content := [bytesToStr msg], isError := true }, []) := by
  simp only [ClaudeRunner.callTool, hval]

open ClaudeRunner in
/-- Witness for C7: cwd `/etc` against the allow-list root `/workspace`. -/
theorem sandbox_violation_no_spawn_witness :
    ClaudeRunner.callTool runNever fsxNone fsrNone [] rootsW
        "claude.one_shot" c7Args =
      ({ content := [bytesToStr c7Msg], isError := true }, []) :=
  sandbox_violation_no_spawn runNever fsxNone fsrNone [] rootsW
    "claude.one_shot" c7Args c7Msg (by decide)

open ClaudeRunner in
/-- C8: when the child outlives the wall-clock timer the result is
`timedOut = true` with exit code `124` (the process having been killed),
and this is the only way `timedOut` becomes true; a non-timed-out close
reports the child's own exit code (`?? 1` for a `null` code) and a spawn
error reports exit code 1, both with `timedOut = false`. -/
theorem timeout_kill_semantics (code : Option ℤ) (atMs : ℚ)
    (out err msg : List ℕ) (timeoutSec : Option ℚ) :
    ((timeoutSec.getD 0) * 1000 < atMs →
      runClaude (ChildBehavior.closes code atMs out err) timeoutSec =
        ⟨124, out, err, true⟩) ∧
    (¬ ((timeoutSec.getD 0) * 1000 < atMs) →
      runClaude (ChildBehavior.closes code atMs out err) timeoutSec =
        ⟨code.getD 1, out, err, false⟩) ∧
    (runClaude (ChildBehavior.spawnFails msg) timeoutSec =
      ⟨1, [], msg, false⟩) ∧
    ((runClaude (ChildBehavior.closes code atMs out err) timeoutSec).timedOut =
        true ↔ (timeoutSec.getD 0) * 1000 < atMs) := by
  refine ⟨fun h => ?_, fun h => ?_, rfl, ?_⟩
  · simp only [runClaude, if_pos h]
  · simp only [runClaude, if_neg h]
  · by_cases h : (timeoutSec.getD 0) * 1000 < atMs
    · simp [runClaude, h]
    · simp [runClaude, h]

open ClaudeRunner in
/-- Witness for C8: a 1-second timeout against a child that would close at
5000 ms (killed, 124), and one that closes at 500 ms with code 3. -/
theorem timeout_kill_semantics_witness :
    runClaude (ChildBehavior.closes (some 0) 5000 [] []) (some 1) =
      ⟨124, [], [], true⟩ ∧
    runClaude (ChildBehavior.closes (some 3) 500 [] []) (some 1) =
      ⟨(some (3 : ℤ)).getD 1, [], [], false⟩ :=
  ⟨(timeout_kill_semantics (some 0) 5000 [] [] [] (some 1)).1 (by norm_num),
   (timeout_kill_semantics (some 3) 500 [] [] [] (some 1)).2.1 (by norm_num)⟩

open ModelRouter in
/-- `runBrainstorm` after the requirement check: the participant filter
decides between the validation error and the pipeline over the kept
participants. -/
theorem runBrainstormCore_eq (gw : GW) (args : JsVal)
    (hreq : jsTrim (jsToString (jsOr (jsField args "requirement")
      (JsVal.str ""))) ≠ "") :
    runBrainstormCore gw args =
      match keptParticipants args with
      | [] => BrainstormOutcome.invalidParticipants
      | p0 :: _ =>
        BrainstormOutcome.report (brainstormPipeline gw
          (jsTrim (jsToString (jsOr (jsField args "requirement")
            (JsVal.str ""))))
          ⟨jsNumberOr (jsField args "timeout_sec") 180,
           jsNumberOr (jsField args "temperature") temperatureDefault,
           jsNumberOr (jsField args "max_tokens") 2048⟩
          (keptParticipants args)
          (clampRounds (jsNumberOr (jsField args "debate_rounds") 1))
          (jsToString (jsOr (jsField args "synthesis_by")
            (JsVal.str p0.id)))) := by
  rw [runBrainstormCore, if_neg hreq]
  rfl

open ModelRouter in
/-- Any proposal-stage error entry is tagged with the participant id. -/
theorem propErr_shape (gw : GW) (req : String) (lims : CallLimits)
    (m : ModelSpec) (e : String) (he : e ∈ propErr gw req lims m) :
    ∃ s, e = "[proposal:" ++ m.id ++ s := by
  rw [propErr] at he
  by_cases hc : (gw m (BPrompt.proposal req) lims).code ≠ 0
  · rw [if_pos hc] at he
    simp only [List.mem_singleton] at he
    refine ⟨"] code=" ++ toString (gw m (BPrompt.proposal req) lims).code, ?_⟩
    rw [he]
    simp [String.append_assoc]
  · rw [if_neg hc] at he
    exact absurd he (List.not_mem_nil e)

open ModelRouter in
/-- Any synthesis-stage error entry is tagged with the synthesiser id. -/
theorem pipelineSerrs_shape (gw : GW) (req : String) (lims : CallLimits)
    (ps : List ModelSpec) (droundsVal : Option ℚ) (synthBy : String)
    (e : String) (he : e ∈ pipelineSerrs gw req lims ps droundsVal synthBy) :
    ∃ s, e = "[synthesis:" ++ (synthModelOf ps synthBy).id ++ s := by
  rw [pipelineSerrs] at he
  by_cases hc : (pipelineSynth gw req lims ps droundsVal synthBy).code ≠ 0
  · rw [if_pos hc] at he
    simp only [List.mem_singleton] at he
    refine ⟨"] code=" ++
      toString (pipelineSynth gw req lims ps droundsVal synthBy).code, ?_⟩
    rw [he]
    simp [String.append_assoc]
  · rw [if_neg hc] at he
    exact absurd he (List.not_mem_nil e)

open ModelRouter in
/-- The synthesiser picked by `synthModelOf` is one of the participants. -/
theorem synthModelOf_mem (p0 : ModelSpec) (rest : List ModelSpec)
    (synthBy : String) : synthModelOf (p0 :: rest) synthBy ∈ p0 :: rest := by
  rw [synthModelOf]
  cases hf : (p0 :: rest).find? (fun m => m.id = synthBy) with
  | none => simp [List.headI]
  | some m =>
    simp only [Option.getD_some]
    exact List.mem_of_find?_eq_some hf

open ModelRouter in
/-- C9: `model.brainstorm` silently drops every `participants` entry
`toModelSpec` rejects (no error-log record, no proposals entry), assigns the
positional fallback id `model_<idx+1>` when the `id` field is falsy, and
returns the participants-validation error iff no entry survives. -/
theorem participants_filter_semantics (gw : GW) (args : JsVal)
    (hreq : jsTrim (jsToString (jsOr (jsField args "requirement")
      (JsVal.str ""))) ≠ "") :
    (runBrainstormCore gw args = BrainstormOutcome.invalidParticipants ↔
      keptParticipants args = []) ∧
    (∀ r, runBrainstormCore gw args = BrainstormOutcome.report r →
      r.participants = (keptParticipants args).map (fun m => m.id) ∧
      (∀ k, (objGet r.proposals k).isSome →
        k ∈ (keptParticipants args).map (fun m => m.id)) ∧
      (∀ e ∈ r.errors, ∃ p ∈ keptParticipants args, ∃ s : String,
        e = "[proposal:" ++ p.id ++ s ∨
        (∃ i : ℕ, e = "[debate-r" ++ toString i ++ ":" ++ p.id ++ s) ∨
        e = "[synthesis:" ++ p.id ++ s)) ∧
    (∀ (input : JsVal) (fb : String) (spec : ModelSpec),
      toModelSpec input fb = some spec →
      jsTruthy (jsField input "id") = false → spec.id = fb) := by
  refine ⟨?_, ?_, ?_⟩
  · rw [runBrainstormCore_eq gw args hreq]
    cases hk : keptParticipants args with
    | nil => simp
    | cons p0 rest => simp
  · intro r hr
    rw [runBrainstormCore_eq gw args hreq] at hr
    cases hk : keptParticipants args with
    | nil =>
      rw [hk] at hr
      exact absurd hr (by simp)
    | cons p0 rest =>
      rw [hk] at hr
      simp only [BrainstormOutcome.report.injEq] at hr
      subst hr
      obtain ⟨hP, hD, hE, hPart⟩ := brainstormPipeline_fields gw _ _ _ _ _
      refine ⟨hPart, ?_, ?_⟩
      · intro k hkk
        rw [hP, pipelineProp, proposalStage, proposalStep_eq_stepFold] at hkk
        rcases stepFold_keys _ _ _ k ([], []) hkk with h | h
        · exact h
        · simp at h
      · intro e he
        rw [hE] at he
        rcases List.mem_append.mp he with he | hse
        · rcases List.mem_append.mp he with hpe | hde
          · rw [pipelineProp, proposalStage, proposalStep_eq_stepFold,
              stepFold_errors] at hpe
            simp only [List.nil_append, List.mem_flatten, List.mem_map] at hpe
            obtain ⟨l, ⟨p, hp, hl⟩, hel⟩ := hpe
            subst hl
            obtain ⟨s, hs⟩ := propErr_shape _ _ _ p e hel
            exact ⟨p, hp, s, Or.inl hs⟩
          · rw [pipelineDebs] at hde
            obtain ⟨p, hp, j, s, hshape⟩ :=
              runDebates_errors_mem gw _ _ _ _ 1 _ e hde
            exact ⟨p, hp, s, Or.inr (Or.inl ⟨j, hshape⟩)⟩
        · obtain ⟨s, hs⟩ := pipelineSerrs_shape _ _ _ _ _ _ e hse
          exact ⟨synthModelOf (p0 :: rest) _, synthModelOf_mem p0 rest _, s,
            Or.inr (Or.inr hs)⟩
  · intro input fb spec htm hid
    match input with
    | JsVal.obj fields =>
      rw [toModelSpec] at htm
      by_cases hcond :
          asciiLower (jsToString (jsOr (jsField (JsVal.obj fields) "provider")
            (JsVal.str ""))) = "" ∨
          jsTrim (jsToString (jsOr (jsField (JsVal.obj fields) "model")
            (JsVal.str ""))) = ""
      · rw [if_pos hcond] at htm
        exact absurd htm (by simp)
      · rw [if_neg hcond] at htm
        simp only [Option.some.injEq] at htm
        rw [← htm]
        rw [jsOr, hid]
        rfl

open ModelRouter in
/-- Witness for C9: one junk string entry and one entry missing `model` are
dropped; the surviving entry (no `id` field) gets the fallback id
`model_2`. -/
theorem participants_filter_semantics_witness :
    (runBrainstormCore oneOkGW c9Args = BrainstormOutcome.invalidParticipants ↔
      keptParticipants c9Args = []) ∧
    (∀ r, runBrainstormCore oneOkGW c9Args = BrainstormOutcome.report r →
      r.participants = (keptParticipants c9Args).map (fun m => m.id) ∧
      (∀ k, (objGet r.proposals k).isSome →
        k ∈ (keptParticipants c9Args).map (fun m => m.id)) ∧
      (∀ e ∈ r.errors, ∃ p ∈ keptParticipants c9Args, ∃ s : String,
        e = "[proposal:" ++ p.id ++ s ∨
        (∃ i : ℕ, e = "[debate-r" ++ toString i ++ ":" ++ p.id ++ s) ∨
        e = "[synthesis:" ++ p.id ++ s)) ∧
    (∀ (input : JsVal) (fb : String) (spec : ModelSpec),
      toModelSpec input fb = some spec →
      jsTruthy (jsField input "id") = false → spec.id = fb) :=
  participants_filter_semantics oneOkGW c9Args (by decide)

open ModelRouter in
/-- C10: `callModel` is total over arbitrary provider strings: any provider
outside the four supported ones returns code 2 with a text naming the
unsupported provider and issues no HTTP request, and `model.one_shot` then
returns that text as an error `ToolResult` rather than raising. -/
theorem unknown_provider_total (http : HttpRequest → HttpResponse)
    (spec : ModelSpec) (prompt : String)
    (timeoutSec temperature maxTokens : Option ℚ)
    (h : spec.provider ∉ ["openai", "anthropic", "gemini", "custom"]) :
    callModel http spec prompt timeoutSec temperature maxTokens =
      ({ code := 2,
         text := "[" ++ spec.id ++ "] unsupported provider: " ++
           spec.provider }, []) ∧
    (∀ args, toModelSpec (jsField args "model") "model_1" = some spec →
      jsTrim (jsToString (jsOr (jsField args "prompt") (JsVal.str ""))) =
        prompt → prompt ≠ "" →
      callTool http "model.one_shot" args =
        { content := ["[" ++ spec.id ++ "] unsupported provider: " ++
            spec.provider], isError := true }) := by
  simp only [List.mem_cons, List.mem_singleton, not_or] at h
  obtain ⟨h1, h2, h3, h4, -⟩ := h
  have hcall : ∀ (t te mt : Option ℚ) (pr : String),
      callModel http spec pr t te mt =
        ({ code := 2,
           text := "[" ++ spec.id ++ "] unsupported provider: " ++
             spec.provider }, []) := by
    intro t te mt pr
    rw [callModel, if_neg h1, if_neg h2, if_neg h3, if_neg h4]
  refine ⟨hcall _ _ _ _, ?_⟩
  intro args hspec hprompt hne
  rw [callTool, if_pos (show "model.one_shot" = "model.one_shot" from rfl)]
  simp only [hspec, hprompt, if_neg hne, hcall]
  rfl

open ModelRouter in
/-- Witness for C10: provider `GROK` lowercases to `grok`, is unsupported,
and `model.one_shot` reports the code-2 text as an error result. -/
theorem unknown_provider_total_witness :
    callModel httpAny c10Spec "hello" (some 180)
        (some temperatureDefault) (some 2048) =
      ({ code := 2,
         text := "[" ++ c10Spec.id ++ "] unsupported provider: " ++
           c10Spec.provider }, []) ∧
    callTool httpAny "model.one_shot" c10Args =
      { content := ["[" ++ c10Spec.id ++ "] unsupported provider: " ++
          c10Spec.provider], isError := true } := by
  have h := unknown_provider_total httpAny c10Spec "hello" (some 180)
    (some temperatureDefault) (some 2048) (by decide)
  exact ⟨h.1, h.2 c10Args (by decide) (by decide) (by decide)⟩

end AiStack
